import Mathlib

/-!
# RecordWriteStub (arm64): stub key, register plan, barrier protocol

A shallow embedding of `src/arm64/code-stubs-arm64.h`.

* Machine integers are `Nat`; the 32-bit stub key is reduced `% 2 ^ 32`
  wherever a shift could leave the word.
* Code that can abort (a failed `DCHECK`, a rejected construction, a pop from
  an empty stack) returns `Option`.
* The macro assembler is the list of instructions emitted so far; emitted code
  is run on an explicit machine state.
* Types and helpers that the header only uses (`BitField`, `Register`,
  `CPURegList`, the assembler's push and pop) are declared elsewhere in the
  repository; each model of such a part says so in its doc comment.
-/

set_option autoImplicit false

namespace v8
namespace internal

/-! ## Bit fields and the enums packed into the key -/

/-- Width of the stub key: `minor_key_` is a `uint32_t`. -/
def kKeyBits : Nat := 32

/-- Modelled from the spec: the `BitField<T, shift, size>` template, declared
outside this header. The spec (section 4.1) describes it as pure bit arithmetic
with fixed field widths; a field is its position and its width. -/
structure BitField where
  shift : Nat
  size : Nat
deriving DecidableEq, Repr

namespace BitField

/-- Mask of the bits a field occupies: `((1 << shift) << size) - (1 << shift)`. -/
def kMask (f : BitField) : Nat :=
  ((1 <<< f.shift) <<< f.size) - (1 <<< f.shift)

/-- Largest value a field can hold: `(1 << size) - 1`. -/
def kMax (f : BitField) : Nat :=
  (1 <<< f.size) - 1

/-- A value fits the field when it has no bit above the field width. -/
def is_valid (f : BitField) (value : Nat) : Bool :=
  decide (value ≤ f.kMax)

/-- Field encoding: `value << shift`, as a 32-bit word. -/
def encode (f : BitField) (value : Nat) : Nat :=
  (value <<< f.shift) % 2 ^ kKeyBits

/-- Field decoding: `(key & kMask) >> shift`. -/
def decode (f : BitField) (key : Nat) : Nat :=
  (key &&& f.kMask) >>> f.shift

end BitField

/-- Whether the barrier records the slot in the remembered set. The enum is
declared outside this header; its two values are numbered in declaration
order. -/
inductive RememberedSetAction where
  | EMIT_REMEMBERED_SET
  | OMIT_REMEMBERED_SET
deriving DecidableEq, Repr

/-- Whether the barrier preserves floating-point registers around a native
call. The enum is declared outside this header; its two values are numbered in
declaration order. -/
inductive SaveFPRegsMode where
  | kDontSaveFPRegs
  | kSaveFPRegs
deriving DecidableEq, Repr

namespace RememberedSetAction

/-- Integer value of the enum constant. -/
def toNat : RememberedSetAction → Nat
  | EMIT_REMEMBERED_SET => 0
  | OMIT_REMEMBERED_SET => 1

/-- The cast from the decoded field back to the enum. -/
def fromNat (n : Nat) : RememberedSetAction :=
  if n = 0 then EMIT_REMEMBERED_SET else OMIT_REMEMBERED_SET

end RememberedSetAction

namespace SaveFPRegsMode

/-- Integer value of the enum constant. -/
def toNat : SaveFPRegsMode → Nat
  | kDontSaveFPRegs => 0
  | kSaveFPRegs => 1

/-- The cast from the decoded field back to the enum. -/
def fromNat (n : Nat) : SaveFPRegsMode :=
  if n = 0 then kDontSaveFPRegs else kSaveFPRegs

end SaveFPRegsMode

/-! ## Registers -/

/-- Size in bits of an X register. -/
def kXRegSizeInBits : Nat := 64

/-- Size in bits of a D register. -/
def kDRegSizeInBits : Nat := 64

/-- Modelled from the spec: the `Register` class, declared outside this
header. A general-purpose register is identified by its code (the spec's
register index) and carries its width. -/
structure Register where
  reg_code : Nat
  reg_size : Nat
deriving DecidableEq, Repr

namespace Register

/-- The register's code. -/
def code (r : Register) : Nat := r.reg_code

/-- Whether the register is used at its full 64-bit width. -/
def Is64Bits (r : Register) : Bool := decide (r.reg_size = kXRegSizeInBits)

/-- The X register with the given code. -/
def from_code (c : Nat) : Register := ⟨c, kXRegSizeInBits⟩

end Register

/-- The absent register. -/
def NoReg : Register := ⟨0, 0⟩

/-! ## The stub key -/

namespace RecordWriteStub

/-- The key field `ObjectBits : BitField<int, 0, 5>`. -/
def ObjectBits : BitField := ⟨0, 5⟩
/-- The key field `ValueBits : BitField<int, 5, 5>`. -/
def ValueBits : BitField := ⟨5, 5⟩
/-- The key field `AddressBits : BitField<int, 10, 5>`. -/
def AddressBits : BitField := ⟨10, 5⟩
/-- The key field `RememberedSetActionBits : BitField<RememberedSetAction, 15, 1>`. -/
def RememberedSetActionBits : BitField := ⟨15, 1⟩
/-- The key field `SaveFPRegsModeBits : BitField<SaveFPRegsMode, 16, 1>`. -/
def SaveFPRegsModeBits : BitField := ⟨16, 1⟩

/-- The value the first constructor assigns to `minor_key_`: the OR of the
five field encodings. -/
def MinorKey (object value address : Register)
    (remembered_set_action : RememberedSetAction) (fp_mode : SaveFPRegsMode) : Nat :=
  ObjectBits.encode object.code |||
  ValueBits.encode value.code |||
  AddressBits.encode address.code |||
  RememberedSetActionBits.encode remembered_set_action.toNat |||
  SaveFPRegsModeBits.encode fp_mode.toNat

/-- The accessor `object()`, on a key. -/
def object (minor_key : Nat) : Register :=
  Register.from_code (ObjectBits.decode minor_key)

/-- The accessor `value()`, on a key. -/
def value (minor_key : Nat) : Register :=
  Register.from_code (ValueBits.decode minor_key)

/-- The accessor `address()`, on a key. -/
def address (minor_key : Nat) : Register :=
  Register.from_code (AddressBits.decode minor_key)

/-- The accessor `remembered_set_action()`, on a key. -/
def remembered_set_action (minor_key : Nat) : RememberedSetAction :=
  RememberedSetAction.fromNat (RememberedSetActionBits.decode minor_key)

/-- The accessor `save_fp_regs_mode()`, on a key. -/
def save_fp_regs_mode (minor_key : Nat) : SaveFPRegsMode :=
  SaveFPRegsMode.fromNat (SaveFPRegsModeBits.decode minor_key)

end RecordWriteStub

/-! ## Register lists -/

/-- Kind of a register in a register list; the source names
`CPURegister::kRegister` for the general-purpose kind. -/
inductive RegisterType where
  | kRegister
  | kFPRegister
deriving DecidableEq, Repr

/-- Number of register codes a register list can hold. -/
def kRegListSizeInBits : Nat := 64

/-- The bits of `a` that are not set in `b`, that is `a & ~b`. -/
def clearBits (a b : Nat) : Nat := a ^^^ (a &&& b)

/-- Modelled from the spec: the `CPURegList` class, declared outside this
header. The spec's RegisterSet is a set of registers; it is held here as a bit
mask over register codes, together with the width and kind that the source
passes to the list constructor. -/
structure CPURegList where
  list : Nat
  size : Nat
  type : RegisterType
deriving DecidableEq, Repr

namespace CPURegList

/-- The list constructor `CPURegList(type, size, first_reg, last_reg)`: the
registers with codes `first_reg .. last_reg`. -/
def range (type : RegisterType) (size first_reg last_reg : Nat) : CPURegList :=
  { list := clearBits ((1 <<< (last_reg + 1)) - 1) ((1 <<< first_reg) - 1)
    size := size
    type := type }

/-- The list constructor `CPURegList(reg1, reg2, ...)`: the X registers given. -/
def ofRegisters (regs : List Register) : CPURegList :=
  { list := regs.foldl (fun acc r => acc ||| (1 <<< r.code)) 0
    size := kXRegSizeInBits
    type := RegisterType.kRegister }

/-- Whether the register with this code is in the list. -/
def IncludesCode (l : CPURegList) (code : Nat) : Bool :=
  l.list.testBit code

/-- Whether the register is in the list. -/
def Includes (l : CPURegList) (r : Register) : Bool :=
  l.IncludesCode r.code

/-- The call `list.Remove(other)`: set difference. -/
def Remove (l other : CPURegList) : CPURegList :=
  { l with list := clearBits l.list other.list }

/-- The codes in the list, in increasing order. -/
def codes (l : CPURegList) : List Nat :=
  (List.range kRegListSizeInBits).filter (fun i => l.list.testBit i)

/-- Number of registers in the list. -/
def Count (l : CPURegList) : Nat :=
  l.codes.length

/-- Whether the list has no register. -/
def IsEmpty (l : CPURegList) : Bool :=
  l.codes.isEmpty

/-- The call `list.PopLowestIndex()`: the register with the lowest code and the
list without it; `NoReg` and the same list when the list is empty. -/
def PopLowestIndex (l : CPURegList) : Register × CPURegList :=
  match l.codes with
  | [] => (NoReg, l)
  | index :: _ => (⟨index, l.size⟩, { l with list := clearBits l.list (1 <<< index) })

end CPURegList

/-- Constants of the target that this header names but does not define. -/
structure Target where
  /-- The value of `MacroAssembler::DefaultTmpList()`. -/
  DefaultTmpList : CPURegList
  /-- The caller-saved general-purpose registers. -/
  kCallerSaved : CPURegList
  /-- The caller-saved floating-point registers. -/
  kCallerSavedFP : CPURegList

/-- The arm64 assembler's two scratch registers `ip0` and `ip1` (x16, x17). -/
def ip0_ip1 : CPURegList :=
  CPURegList.ofRegisters [Register.from_code 16, Register.from_code 17]

/-- The arm64 target: `ip0` and `ip1` are the assembler's scratch registers;
the caller-saved registers of the procedure call standard are x0 to x18 and
d0 to d7 (the upper caller-saved D registers are left out here). -/
def arm64 : Target :=
  { DefaultTmpList := ip0_ip1
    kCallerSaved := CPURegList.range RegisterType.kRegister kXRegSizeInBits 0 18
    kCallerSavedFP := CPURegList.range RegisterType.kFPRegister kDRegSizeInBits 0 7 }

/-! ## The register plan -/

namespace RecordWriteStub

/-- The helper class `RegisterAllocation`: its seven data members. -/
structure RegisterAllocation where
  object_ : Register
  address_ : Register
  scratch0_ : Register
  scratch1_ : Register
  scratch2_ : Register
  saved_regs_ : CPURegList
  saved_fp_regs_ : CPURegList
deriving DecidableEq, Repr

namespace RegisterAllocation

/-- The static function `GetValidRegistersForAllocation()`. The default list
is x0 to x25; the macro assembler's scratch registers are removed from it. -/
def GetValidRegistersForAllocation (DefaultTmpList : CPURegList) : CPURegList :=
  let list := CPURegList.range RegisterType.kRegister kXRegSizeInBits 0 25
  list.Remove DefaultTmpList

/-- The reserved registers listed in the source comment: x26 root, x27
context, x28 jssp, x29 frame pointer, x30 link register, x31 xzr or stack
pointer. -/
def reserved : CPURegList :=
  CPURegList.range RegisterType.kRegister kXRegSizeInBits 26 31

/-- The allocatable registers left once the three caller-supplied registers
are taken out of the pool. -/
def available (DefaultTmpList : CPURegList) (object address scratch : Register) :
    CPURegList :=
  (GetValidRegistersForAllocation DefaultTmpList).Remove
    (CPURegList.ofRegisters [object, address, scratch])

/-- Modelled from the spec: the constructor
`RegisterAllocation(object, address, scratch)`, declared in this header and
defined elsewhere. Section 4.2: verify that none of the given registers is in
the reserved set, and fail if one is; take the allocatable set without the
given registers and pick its two lowest-numbered entries as `scratch1` and
`scratch2`. Section 7: too few free scratch registers is fatal as well. The
plan also holds the caller-save register lists. -/
def create (t : Target) (object address scratch : Register) :
    Option RegisterAllocation :=
  if reserved.Includes object || reserved.Includes address || reserved.Includes scratch then
    none
  else
    let pool_available := available t.DefaultTmpList object address scratch
    if pool_available.Count < 2 then
      none
    else
      let p1 := pool_available.PopLowestIndex
      let p2 := p1.2.PopLowestIndex
      some { object_ := object
             address_ := address
             scratch0_ := scratch
             scratch1_ := p1.1
             scratch2_ := p2.1
             saved_regs_ := t.kCallerSaved
             saved_fp_regs_ := t.kCallerSavedFP }

end RegisterAllocation
end RecordWriteStub

/-- The register plan on arm64 for object = x1, address = x2 and x3 as the
caller-supplied scratch register: x0 and x4 are the two lowest free
registers. -/
def planX1X2X3 : RecordWriteStub.RegisterAllocation :=
  { object_ := Register.from_code 1
    address_ := Register.from_code 2
    scratch0_ := Register.from_code 3
    scratch1_ := Register.from_code 0
    scratch2_ := Register.from_code 4
    saved_regs_ := arm64.kCallerSaved
    saved_fp_regs_ := arm64.kCallerSavedFP }

/-- The stub: the key inherited from `PlatformCodeStub` and the register plan
`regs_`. -/
structure RecordWriteStub where
  minor_key_ : Nat
  regs_ : RecordWriteStub.RegisterAllocation
deriving DecidableEq, Repr

namespace RecordWriteStub

/-- The constructor `RecordWriteStub(isolate, object, value, address,
remembered_set_action, fp_mode)`. The member `regs_` is built first, from
`(object, address, value)`; the three `DCHECK`s on the register width and the
validity check inside each field encoding abort the construction. -/
def create (t : Target) (object value address : Register)
    (remembered_set_action : RememberedSetAction) (fp_mode : SaveFPRegsMode) :
    Option RecordWriteStub :=
  match RegisterAllocation.create t object address value with
  | none => none
  | some regs =>
    if !(object.Is64Bits && value.Is64Bits && address.Is64Bits) then none
    else if !(ObjectBits.is_valid object.code && ValueBits.is_valid value.code &&
        AddressBits.is_valid address.code) then none
    else some { minor_key_ := MinorKey object value address remembered_set_action fp_mode
                regs_ := regs }

/-- The constructor `RecordWriteStub(key, isolate)`: the key is stored and
`regs_` is built from `(object(), address(), value())`. -/
def fromKey (t : Target) (key : Nat) : Option RecordWriteStub :=
  match RegisterAllocation.create t (object key) (address key) (value key) with
  | none => none
  | some regs => some { minor_key_ := key, regs_ := regs }

end RecordWriteStub

/-! ## Emitted code and the machine it runs on -/

/-- The assembler instructions this header emits. -/
inductive Instr where
  /-- `Push(a, b)`: pushes `a`, then `b`. -/
  | Push (a b : Register)
  /-- `Pop(a, b)`: pops into `a`, then into `b`. -/
  | Pop (a b : Register)
  /-- `PushCPURegList(list)`: pushes every register of the list. -/
  | PushCPURegList (list : CPURegList)
  /-- `PopCPURegList(list)`: pops every register of the list. -/
  | PopCPURegList (list : CPURegList)
deriving DecidableEq, Repr

/-- The macro assembler, as the code emitted so far. -/
structure MacroAssembler where
  code : List Instr
deriving DecidableEq, Repr

namespace MacroAssembler

/-- Emit `Push(a, b)`. -/
def Push (masm : MacroAssembler) (a b : Register) : MacroAssembler :=
  ⟨masm.code ++ [Instr.Push a b]⟩

/-- Emit `Pop(a, b)`. -/
def Pop (masm : MacroAssembler) (a b : Register) : MacroAssembler :=
  ⟨masm.code ++ [Instr.Pop a b]⟩

/-- Emit `PushCPURegList(list)`. -/
def PushCPURegList (masm : MacroAssembler) (list : CPURegList) : MacroAssembler :=
  ⟨masm.code ++ [Instr.PushCPURegList list]⟩

/-- Emit `PopCPURegList(list)`. -/
def PopCPURegList (masm : MacroAssembler) (list : CPURegList) : MacroAssembler :=
  ⟨masm.code ++ [Instr.PopCPURegList list]⟩

/-- The code a generator emits into a fresh assembler. -/
def emitted (gen : MacroAssembler → MacroAssembler) : List Instr :=
  (gen ⟨[]⟩).code

end MacroAssembler

namespace RecordWriteStub
namespace RegisterAllocation

/-- The method `Save(masm)`. `scratch0_` is not saved: it was given as a
scratch register. -/
def Save (regs : RegisterAllocation) (masm : MacroAssembler) : MacroAssembler :=
  masm.Push regs.scratch1_ regs.scratch2_

/-- The method `Restore(masm)`. -/
def Restore (regs : RegisterAllocation) (masm : MacroAssembler) : MacroAssembler :=
  masm.Pop regs.scratch2_ regs.scratch1_

/-- The method `SaveCallerSaveRegisters(masm, mode)`. -/
def SaveCallerSaveRegisters (regs : RegisterAllocation) (masm : MacroAssembler)
    (mode : SaveFPRegsMode) : MacroAssembler :=
  let masm := masm.PushCPURegList regs.saved_regs_
  if mode = SaveFPRegsMode.kSaveFPRegs then
    masm.PushCPURegList regs.saved_fp_regs_
  else
    masm

/-- The method `RestoreCallerSaveRegisters(masm, mode)`. -/
def RestoreCallerSaveRegisters (regs : RegisterAllocation) (masm : MacroAssembler)
    (mode : SaveFPRegsMode) : MacroAssembler :=
  let masm :=
    if mode = SaveFPRegsMode.kSaveFPRegs then
      masm.PopCPURegList regs.saved_fp_regs_
    else
      masm
  masm.PopCPURegList regs.saved_regs_

end RegisterAllocation
end RecordWriteStub

/-- The machine state emitted code acts on: the general-purpose registers and
the floating-point registers, each by register code, and the stack with its top
first. -/
structure Machine where
  x : Nat → Nat
  d : Nat → Nat
  stack : List Nat

namespace Machine

/-- Read a register of the given kind. -/
def read (m : Machine) (type : RegisterType) (code : Nat) : Nat :=
  match type with
  | RegisterType.kRegister => m.x code
  | RegisterType.kFPRegister => m.d code

/-- Write a register of the given kind. -/
def write (m : Machine) (type : RegisterType) (code v : Nat) : Machine :=
  match type with
  | RegisterType.kRegister => { m with x := fun c => if c = code then v else m.x c }
  | RegisterType.kFPRegister => { m with d := fun c => if c = code then v else m.d c }

/-- Push the value of one register. -/
def push1 (m : Machine) (type : RegisterType) (code : Nat) : Machine :=
  { m with stack := m.read type code :: m.stack }

/-- Pop the top of the stack into one register; fails on an empty stack. -/
def pop1 (m : Machine) (type : RegisterType) (code : Nat) : Option Machine :=
  match m.stack with
  | [] => none
  | v :: rest => some ({ m with stack := rest }.write type code v)

/-- Push the registers with the given codes, first code first. -/
def pushCodes (type : RegisterType) : List Nat → Machine → Machine
  | [], m => m
  | c :: cs, m => pushCodes type cs (m.push1 type c)

/-- Pop into the registers with the given codes, last code first: the reverse
of the order in which `pushCodes` pushed them. -/
def popCodes (type : RegisterType) : List Nat → Machine → Option Machine
  | [], m => some m
  | c :: cs, m =>
    match popCodes type cs m with
    | none => none
    | some m1 => m1.pop1 type c

/-- Modelled from the spec: the effect of one emitted instruction. The
assembler's `Push`, `Pop`, `PushCPURegList` and `PopCPURegList` are defined
outside this header; the spec (section 4.2) has them push and pop registers as
matched pairs. `Push(a, b)` pushes `a` then `b`, `Pop(a, b)` pops into `a` then
into `b`; a list is pushed in increasing code order and popped in decreasing
code order. -/
def exec (i : Instr) (m : Machine) : Option Machine :=
  match i with
  | Instr.Push a b =>
    some ((m.push1 RegisterType.kRegister a.code).push1 RegisterType.kRegister b.code)
  | Instr.Pop a b =>
    match m.pop1 RegisterType.kRegister a.code with
    | none => none
    | some m1 => m1.pop1 RegisterType.kRegister b.code
  | Instr.PushCPURegList list => some (pushCodes list.type list.codes m)
  | Instr.PopCPURegList list => popCodes list.type list.codes m

/-- Run a sequence of emitted instructions. -/
def run : List Instr → Machine → Option Machine
  | [], m => some m
  | i :: is, m =>
    match exec i m with
    | none => none
    | some m1 => run is m1

end Machine

/-- The push that a pop undoes, and the pop that a push is undone by. -/
def Instr.inverse : Instr → Instr
  | Instr.Push a b => Instr.Pop b a
  | Instr.Pop a b => Instr.Push b a
  | Instr.PushCPURegList list => Instr.PopCPURegList list
  | Instr.PopCPURegList list => Instr.PushCPURegList list

/-! ## The write-barrier protocol -/

namespace RecordWriteStub

/-- The enum `Mode`. -/
inductive Mode where
  | STORE_BUFFER_ONLY
  | INCREMENTAL
  | INCREMENTAL_COMPACTION
deriving DecidableEq, Repr

/-- The enum `OnNoNeedToInformIncrementalMarker`. -/
inductive OnNoNeedToInformIncrementalMarker where
  | kReturnOnNoNeedToInformIncrementalMarker
  | kUpdateRememberedSetOnNoNeedToInformIncrementalMarker
deriving DecidableEq, Repr

end RecordWriteStub

/-- Modelled from the spec: the collector interface of section 6, which this
repository consumes and does not define. The store buffer and the mark worklist
are the queues the barrier appends to, oldest entry first. -/
structure Collector where
  region_is_marking_in_progress : Bool
  value_is_heap_pointer : Nat → Bool
  region_is_fully_marked : Nat → Bool
  store_buffer : List (Nat × Nat)
  mark_worklist : List Nat

namespace Collector

/-- The collector entry `store_buffer_append(object, address)`. -/
def store_buffer_append (c : Collector) (object address : Nat) : Collector :=
  { c with store_buffer := c.store_buffer ++ [(object, address)] }

/-- The collector entry `mark_worklist_push`, the call into the marker. -/
def mark_worklist_push (c : Collector) (target : Nat) : Collector :=
  { c with mark_worklist := c.mark_worklist ++ [target] }

end Collector

namespace RecordWriteStub

/-- The states of the barrier named in section 4.3 of the spec. -/
inductive BarrierState where
  | Start
  | FastCheck
  | RecordStore
  | Mark
  | Done
deriving DecidableEq, Repr

/-- One invocation of the barrier: the values held by the object, address and
value registers on entry. -/
structure Invocation where
  object : Nat
  address : Nat
  value : Nat
deriving DecidableEq, Repr

/-- Modelled from the spec: the fast check of section 4.3, true when marking
is not in progress, or the stored value is not a heap pointer, or the region
containing the value is already fully marked. -/
def fast_check (c : Collector) (i : Invocation) : Bool :=
  !c.region_is_marking_in_progress || !c.value_is_heap_pointer i.value ||
    c.region_is_fully_marked i.value

/-- Modelled from the spec: the code emitted by `InformIncrementalMarker`,
declared in this header and defined elsewhere. It calls the collector's
marking entry point, which pushes the referenced object onto the mark
worklist. -/
def InformIncrementalMarker (i : Invocation) (c : Collector) : Collector :=
  c.mark_worklist_push i.value

/-- Modelled from the spec: the code emitted by
`CheckNeedsToInformIncrementalMarker(masm, on_no_need, mode)`, declared in this
header and defined elsewhere. When the fast check is true the policy decides
between returning and recording the store; when it is false the marker is to be
informed. -/
def CheckNeedsToInformIncrementalMarker (on_no_need : OnNoNeedToInformIncrementalMarker)
    (c : Collector) (i : Invocation) : BarrierState :=
  if fast_check c i then
    match on_no_need with
    | OnNoNeedToInformIncrementalMarker.kReturnOnNoNeedToInformIncrementalMarker =>
      BarrierState.Done
    | OnNoNeedToInformIncrementalMarker.kUpdateRememberedSetOnNoNeedToInformIncrementalMarker =>
      BarrierState.RecordStore
  else
    BarrierState.Mark

/-- Modelled from the spec: one transition of the barrier state machine of
section 4.3, which stands for the code emitted by `Generate` and
`GenerateIncremental` (declared in this header, defined elsewhere).
`Start` dispatches on the patched mode; `FastCheck` is the check above; `Mark`
calls the marker and, only under `INCREMENTAL_COMPACTION`, goes on to record the
store; `RecordStore` appends the slot to the store buffer; `Done` is the
return. -/
def step (mode : Mode) (on_no_need : OnNoNeedToInformIncrementalMarker) (i : Invocation) :
    BarrierState × Collector → BarrierState × Collector
  | (BarrierState.Start, c) =>
    match mode with
    | Mode.STORE_BUFFER_ONLY => (BarrierState.RecordStore, c)
    | Mode.INCREMENTAL => (BarrierState.FastCheck, c)
    | Mode.INCREMENTAL_COMPACTION => (BarrierState.FastCheck, c)
  | (BarrierState.FastCheck, c) =>
    (CheckNeedsToInformIncrementalMarker on_no_need c i, c)
  | (BarrierState.Mark, c) =>
    match mode with
    | Mode.INCREMENTAL_COMPACTION => (BarrierState.RecordStore, InformIncrementalMarker i c)
    | Mode.INCREMENTAL => (BarrierState.Done, InformIncrementalMarker i c)
    | Mode.STORE_BUFFER_ONLY => (BarrierState.Done, InformIncrementalMarker i c)
  | (BarrierState.RecordStore, c) =>
    (BarrierState.Done, c.store_buffer_append i.object i.address)
  | (BarrierState.Done, c) => (BarrierState.Done, c)

/-- Run the state machine for a number of transitions. -/
def runBarrier (mode : Mode) (on_no_need : OnNoNeedToInformIncrementalMarker)
    (i : Invocation) : Nat → BarrierState × Collector → BarrierState × Collector
  | 0, s => s
  | n + 1, s => runBarrier mode on_no_need i n (step mode on_no_need i s)

/-- The longest path of the state machine: `Start`, `FastCheck`, `Mark`,
`RecordStore`, `Done`. -/
def kBarrierSteps : Nat := 4

/-- Modelled from the spec: one invocation of the barrier generated by
`Generate`, from `Start` until the return. -/
def Generate (mode : Mode) (on_no_need : OnNoNeedToInformIncrementalMarker)
    (i : Invocation) (c : Collector) : BarrierState × Collector :=
  runBarrier mode on_no_need i kBarrierSteps (BarrierState.Start, c)

end RecordWriteStub

/-- A collector in the middle of marking, with empty queues: every value is
a heap pointer and no region is fully marked, so the fast check is false. -/
def markingCollector : Collector :=
  { region_is_marking_in_progress := true
    value_is_heap_pointer := fun _ => true
    region_is_fully_marked := fun _ => false
    store_buffer := []
    mark_worklist := [] }

/-- A collector that is not marking, with empty queues: the fast check is
true for every invocation. -/
def idleCollector : Collector :=
  { region_is_marking_in_progress := false
    value_is_heap_pointer := fun _ => true
    region_is_fully_marked := fun _ => false
    store_buffer := []
    mark_worklist := [] }

/-! ## Patching the mode of generated code -/

namespace RecordWriteStub

/-- Modelled from the spec: a generated code object (`Code`, declared outside
this header). Section 4.4 has the mode encoded at a fixed, pre-reserved slot
inside the generated barrier body, and section 6 calls it the mode byte: the
code is its bytes together with the offset of that slot. -/
structure Code where
  bytes : List Nat
  mode_slot : Nat
deriving DecidableEq, Repr

namespace Code

/-- Size of the code in bytes. -/
def byte_length (code : Code) : Nat := code.bytes.length

/-- Whether the code has its mode slot: generated barrier code reserves it. -/
def is_generated (code : Code) : Bool := decide (code.mode_slot < code.bytes.length)

end Code

/-- Modelled from the spec: the encoding of a mode in the slot. The spec
fixes no values; the enum's declaration order is used. -/
def encode_mode : Mode → Nat
  | Mode.STORE_BUFFER_ONLY => 0
  | Mode.INCREMENTAL => 1
  | Mode.INCREMENTAL_COMPACTION => 2

/-- Modelled from the spec: the mode a slot value stands for, if any. -/
def decode_mode (unit : Nat) : Option Mode :=
  if unit = 0 then some Mode.STORE_BUFFER_ONLY
  else if unit = 1 then some Mode.INCREMENTAL
  else if unit = 2 then some Mode.INCREMENTAL_COMPACTION
  else none

/-- Modelled from the spec: `GetMode(stub)`, declared in this header and
defined elsewhere. Section 4.4: read the slot and map it to one of the three
modes. -/
def GetMode (stub : Code) : Option Mode :=
  match stub.bytes.get? stub.mode_slot with
  | none => none
  | some unit => decode_mode unit

/-- Modelled from the spec: `Patch(stub, mode)`, declared in this header and
defined elsewhere. Section 4.4: overwrite only the slot with the encoding of
the mode. -/
def Patch (stub : Code) (mode : Mode) : Code :=
  { stub with bytes := stub.bytes.set stub.mode_slot (encode_mode mode) }

/-- A sequence of `Patch` calls, in order. -/
def PatchAll (stub : Code) (modes : List Mode) : Code :=
  modes.foldl Patch stub

end RecordWriteStub

/-- A generated code object of eight bytes with its mode slot at offset 2,
holding the encoding of `STORE_BUFFER_ONLY`. -/
def sampleCode : RecordWriteStub.Code :=
  { bytes := [31, 32, 0, 214, 95, 3, 192, 214], mode_slot := 2 }

/-! ## The negative dictionary lookup -/

namespace NameDictionaryLookupStub

/-- The constant `kInlinedProbes`. -/
def kInlinedProbes : Nat := 4

/-- The constant `kTotalProbes`. -/
def kTotalProbes : Nat := 20

/-- A property name: its identity and its hash. -/
structure Name where
  id : Nat
  hash : Nat
deriving DecidableEq, Repr

/-- A slot of a properties table: empty, or holding a key. -/
inductive Slot where
  | Empty
  | Entry (key : Name)
deriving DecidableEq, Repr

/-- Modelled from the spec: the properties table (`NameDictionary`, declared
outside this header), an open-addressing table given by its slots. -/
structure NameDictionary where
  slots : List Slot
deriving DecidableEq, Repr

/-- The branch targets of the emitted lookup. -/
inductive Label where
  | miss
  | done
deriving DecidableEq, Repr

/-- The table capacity, read from the table header. -/
def capacity (properties : NameDictionary) : Nat := properties.slots.length

/-- Modelled from the spec: the slot at a position of the name's probe
sequence. Section 4.5 derives the sequence from the name's hash and the table
capacity; the offset of each probe position is left to the table
implementation and is a parameter here. -/
def slot_at (properties : NameDictionary) (probe_offset : Nat → Nat) (name : Name)
    (position : Nat) : Slot :=
  properties.slots.getD ((name.hash + probe_offset position) % capacity properties) Slot.Empty

/-- Modelled from the spec: the inline slot comparisons, from a probe position
on and with a budget of probes. Section 4.5: an empty slot proves the key
absent and branches to `done`; a slot that matches the name, or an exhausted
budget, branches to `miss`. -/
def probe (properties : NameDictionary) (probe_offset : Nat → Nat) (name : Name) :
    Nat → Nat → Label
  | 0, _ => Label.miss
  | budget + 1, position =>
    match slot_at properties probe_offset name position with
    | Slot.Empty => Label.done
    | Slot.Entry key =>
      if key = name then Label.miss
      else probe properties probe_offset name budget (position + 1)

/-- Modelled from the spec: the code emitted by `GenerateNegativeLookup`,
declared in this header and defined elsewhere: `kInlinedProbes` inline probes
from the start of the name's probe sequence. -/
def GenerateNegativeLookup (properties : NameDictionary) (probe_offset : Nat → Nat)
    (name : Name) : Label :=
  probe properties probe_offset name kInlinedProbes 0

end NameDictionaryLookupStub

/-- The property name "x" of the scenarios, with hash 3. -/
def nameX : NameDictionaryLookupStub.Name := ⟨120, 3⟩

/-- Another property name, used to fill slots. -/
def nameY : NameDictionaryLookupStub.Name := ⟨121, 5⟩

/-- A table with 8 slots whose only entry lies outside the first four probe
positions of "x" (slots 3, 4, 5, 6 under linear probing). -/
def sparseTable : NameDictionaryLookupStub.NameDictionary :=
  { slots := [NameDictionaryLookupStub.Slot.Entry nameY, NameDictionaryLookupStub.Slot.Empty,
      NameDictionaryLookupStub.Slot.Empty, NameDictionaryLookupStub.Slot.Empty,
      NameDictionaryLookupStub.Slot.Empty, NameDictionaryLookupStub.Slot.Empty,
      NameDictionaryLookupStub.Slot.Empty, NameDictionaryLookupStub.Slot.Empty] }

/-- A table with 8 slots in which "x" sits at probe position 6 of its own
probe sequence (slot 1 under linear probing from slot 3), behind six slots
held by another name; slot 2 is empty. -/
def crowdedTable : NameDictionaryLookupStub.NameDictionary :=
  { slots := [NameDictionaryLookupStub.Slot.Entry nameY, NameDictionaryLookupStub.Slot.Entry nameX,
      NameDictionaryLookupStub.Slot.Empty, NameDictionaryLookupStub.Slot.Entry nameY,
      NameDictionaryLookupStub.Slot.Entry nameY, NameDictionaryLookupStub.Slot.Entry nameY,
      NameDictionaryLookupStub.Slot.Entry nameY, NameDictionaryLookupStub.Slot.Entry nameY] }

/-- A machine state for concrete runs: register `c` holds `c + 10`, and the
stack holds two values. -/
def sampleMachine : Machine :=
  { x := fun c => c + 10
    d := fun c => c + 50
    stack := [7, 8] }

/-! ## Key arithmetic -/

theorem BitField.decode_eq (f : BitField) (key : Nat) :
    f.decode key = key / 2 ^ f.shift % 2 ^ f.size := by
  have hm : f.kMask = (2 ^ f.size - 1) <<< f.shift := by
    simp only [BitField.kMask, Nat.shiftLeft_eq, Nat.one_mul, Nat.sub_mul]
    rw [Nat.mul_comm]
  unfold BitField.decode
  rw [hm]
  apply Nat.eq_of_testBit_eq
  intro i
  rw [← Nat.shiftRight_eq_div_pow]
  simp only [Nat.testBit_shiftRight, Nat.testBit_and, Nat.testBit_shiftLeft,
    Nat.testBit_two_pow_sub_one, Nat.testBit_mod_two_pow]
  have h1 : f.shift + i - f.shift = i := by omega
  have h2 : f.shift + i ≥ f.shift := by omega
  simp [h1, h2, Bool.and_comm]

theorem or_shift_eq_add (lo hi s : Nat) (h : lo < 2 ^ s) :
    lo ||| hi * 2 ^ s = lo + hi * 2 ^ s := by
  rw [Nat.or_comm, Nat.mul_comm, ← Nat.mul_add_lt_is_or h, Nat.add_comm]

theorem RecordWriteStub.MinorKey_eq (o v a : Nat) (r : RememberedSetAction)
    (f : SaveFPRegsMode) (ho : o < 32) (hv : v < 32) (ha : a < 32) :
    RecordWriteStub.MinorKey (Register.from_code o) (Register.from_code v)
        (Register.from_code a) r f
      = o + 2 ^ 5 * v + 2 ^ 10 * a + 2 ^ 15 * r.toNat + 2 ^ 16 * f.toNat := by
  have hr : r.toNat < 2 := by cases r <;> decide
  have hf : f.toNat < 2 := by cases f <;> decide
  simp only [RecordWriteStub.MinorKey, BitField.encode, Register.code, Register.from_code,
    RecordWriteStub.ObjectBits, RecordWriteStub.ValueBits, RecordWriteStub.AddressBits,
    RecordWriteStub.RememberedSetActionBits, RecordWriteStub.SaveFPRegsModeBits, kKeyBits,
    Nat.shiftLeft_eq]
  rw [Nat.mod_eq_of_lt (by omega : o * 2 ^ 0 < 2 ^ 32),
    Nat.mod_eq_of_lt (by omega : v * 2 ^ 5 < 2 ^ 32),
    Nat.mod_eq_of_lt (by omega : a * 2 ^ 10 < 2 ^ 32),
    Nat.mod_eq_of_lt (by omega : r.toNat * 2 ^ 15 < 2 ^ 32),
    Nat.mod_eq_of_lt (by omega : f.toNat * 2 ^ 16 < 2 ^ 32)]
  rw [or_shift_eq_add _ _ 5 (by omega), or_shift_eq_add _ _ 10 (by omega),
    or_shift_eq_add _ _ 15 (by omega), or_shift_eq_add _ _ 16 (by omega)]
  omega

theorem RecordWriteStub.MinorKey_lt (o v a : Nat) (r : RememberedSetAction)
    (f : SaveFPRegsMode) (ho : o < 32) (hv : v < 32) (ha : a < 32) :
    RecordWriteStub.MinorKey (Register.from_code o) (Register.from_code v)
        (Register.from_code a) r f < 2 ^ 17 := by
  have hr : r.toNat < 2 := by cases r <;> decide
  have hf : f.toNat < 2 := by cases f <;> decide
  rw [RecordWriteStub.MinorKey_eq o v a r f ho hv ha]
  omega

theorem RememberedSetAction.action_fromNat_toNat (r : RememberedSetAction) :
    RememberedSetAction.fromNat r.toNat = r := by
  cases r <;> rfl

theorem SaveFPRegsMode.fp_mode_fromNat_toNat (f : SaveFPRegsMode) :
    SaveFPRegsMode.fromNat f.toNat = f := by
  cases f <;> rfl

/-- C1: for register indices in 0..31 and either value of the two flags, the
key built as the first constructor builds it (the OR of the five field
encodings) decodes through `object()`, `value()`, `address()`,
`remembered_set_action()` and `save_fp_regs_mode()` to the original
5-tuple. -/
theorem RecordWriteStub.key_roundtrip (o v a : Nat) (r : RememberedSetAction)
    (f : SaveFPRegsMode) (ho : o < 32) (hv : v < 32) (ha : a < 32) :
    RecordWriteStub.object (RecordWriteStub.MinorKey (Register.from_code o)
        (Register.from_code v) (Register.from_code a) r f) = Register.from_code o ∧
    RecordWriteStub.value (RecordWriteStub.MinorKey (Register.from_code o)
        (Register.from_code v) (Register.from_code a) r f) = Register.from_code v ∧
    RecordWriteStub.address (RecordWriteStub.MinorKey (Register.from_code o)
        (Register.from_code v) (Register.from_code a) r f) = Register.from_code a ∧
    RecordWriteStub.remembered_set_action (RecordWriteStub.MinorKey (Register.from_code o)
        (Register.from_code v) (Register.from_code a) r f) = r ∧
    RecordWriteStub.save_fp_regs_mode (RecordWriteStub.MinorKey (Register.from_code o)
        (Register.from_code v) (Register.from_code a) r f) = f := by
  have hr : r.toNat < 2 := by cases r <;> decide
  have hf : f.toNat < 2 := by cases f <;> decide
  have hk := RecordWriteStub.MinorKey_eq o v a r f ho hv ha
  have e1 : RecordWriteStub.ObjectBits.decode (RecordWriteStub.MinorKey (Register.from_code o)
      (Register.from_code v) (Register.from_code a) r f) = o := by
    rw [BitField.decode_eq, hk]; simp only [RecordWriteStub.ObjectBits]; omega
  have e2 : RecordWriteStub.ValueBits.decode (RecordWriteStub.MinorKey (Register.from_code o)
      (Register.from_code v) (Register.from_code a) r f) = v := by
    rw [BitField.decode_eq, hk]; simp only [RecordWriteStub.ValueBits]; omega
  have e3 : RecordWriteStub.AddressBits.decode (RecordWriteStub.MinorKey (Register.from_code o)
      (Register.from_code v) (Register.from_code a) r f) = a := by
    rw [BitField.decode_eq, hk]; simp only [RecordWriteStub.AddressBits]; omega
  have e4 : RecordWriteStub.RememberedSetActionBits.decode (RecordWriteStub.MinorKey
      (Register.from_code o) (Register.from_code v) (Register.from_code a) r f) = r.toNat := by
    rw [BitField.decode_eq, hk]; simp only [RecordWriteStub.RememberedSetActionBits]; omega
  have e5 : RecordWriteStub.SaveFPRegsModeBits.decode (RecordWriteStub.MinorKey
      (Register.from_code o) (Register.from_code v) (Register.from_code a) r f) = f.toNat := by
    rw [BitField.decode_eq, hk]; simp only [RecordWriteStub.SaveFPRegsModeBits]; omega
  simp only [RecordWriteStub.object, RecordWriteStub.value, RecordWriteStub.address,
    RecordWriteStub.remembered_set_action, RecordWriteStub.save_fp_regs_mode, e1, e2, e3, e4, e5,
    RememberedSetAction.action_fromNat_toNat, SaveFPRegsMode.fp_mode_fromNat_toNat, and_self]

/-- C1, the scenario of the spec: object = r1, value = r3, address = r2,
`EMIT_REMEMBERED_SET`, `kDontSaveFPRegs`. -/
theorem RecordWriteStub.key_roundtrip_witness :
    (1 < 32 ∧ 3 < 32 ∧ 2 < 32) ∧
    RecordWriteStub.MinorKey (Register.from_code 1) (Register.from_code 3)
        (Register.from_code 2) RememberedSetAction.EMIT_REMEMBERED_SET
        SaveFPRegsMode.kDontSaveFPRegs = 2145 ∧
    (RecordWriteStub.object (RecordWriteStub.MinorKey (Register.from_code 1)
        (Register.from_code 3) (Register.from_code 2) RememberedSetAction.EMIT_REMEMBERED_SET
        SaveFPRegsMode.kDontSaveFPRegs) = Register.from_code 1 ∧
    RecordWriteStub.value (RecordWriteStub.MinorKey (Register.from_code 1)
        (Register.from_code 3) (Register.from_code 2) RememberedSetAction.EMIT_REMEMBERED_SET
        SaveFPRegsMode.kDontSaveFPRegs) = Register.from_code 3 ∧
    RecordWriteStub.address (RecordWriteStub.MinorKey (Register.from_code 1)
        (Register.from_code 3) (Register.from_code 2) RememberedSetAction.EMIT_REMEMBERED_SET
        SaveFPRegsMode.kDontSaveFPRegs) = Register.from_code 2 ∧
    RecordWriteStub.remembered_set_action (RecordWriteStub.MinorKey (Register.from_code 1)
        (Register.from_code 3) (Register.from_code 2) RememberedSetAction.EMIT_REMEMBERED_SET
        SaveFPRegsMode.kDontSaveFPRegs) = RememberedSetAction.EMIT_REMEMBERED_SET ∧
    RecordWriteStub.save_fp_regs_mode (RecordWriteStub.MinorKey (Register.from_code 1)
        (Register.from_code 3) (Register.from_code 2) RememberedSetAction.EMIT_REMEMBERED_SET
        SaveFPRegsMode.kDontSaveFPRegs) = SaveFPRegsMode.kDontSaveFPRegs) :=
  ⟨by decide, by decide,
    RecordWriteStub.key_roundtrip 1 3 2 RememberedSetAction.EMIT_REMEMBERED_SET
      SaveFPRegsMode.kDontSaveFPRegs (by decide) (by decide) (by decide)⟩

/-- C2: for register indices in 0..31 the key computed by the first
constructor is `object + 2^5 * value + 2^10 * address + 2^15 *
remembered_set_action + 2^16 * save_fp_regs`: the five fields sit at bits 0-4,
5-9, 10-14, 15 and 16 in that order, and no bit from 17 upward is set. -/
theorem RecordWriteStub.key_layout (o v a : Nat) (r : RememberedSetAction)
    (f : SaveFPRegsMode) (ho : o < 32) (hv : v < 32) (ha : a < 32) :
    RecordWriteStub.MinorKey (Register.from_code o) (Register.from_code v)
        (Register.from_code a) r f
      = o + 2 ^ 5 * v + 2 ^ 10 * a + 2 ^ 15 * r.toNat + 2 ^ 16 * f.toNat ∧
    RecordWriteStub.MinorKey (Register.from_code o) (Register.from_code v)
        (Register.from_code a) r f < 2 ^ 17 ∧
    r.toNat < 2 ∧ f.toNat < 2 :=
  ⟨RecordWriteStub.MinorKey_eq o v a r f ho hv ha,
    RecordWriteStub.MinorKey_lt o v a r f ho hv ha,
    by cases r <;> decide, by cases f <;> decide⟩

/-- C2 at the largest tuple: every field at its maximum gives the key
`2^17 - 1`. -/
theorem RecordWriteStub.key_layout_witness :
    (31 < 32) ∧
    (RecordWriteStub.MinorKey (Register.from_code 31) (Register.from_code 31)
        (Register.from_code 31) RememberedSetAction.OMIT_REMEMBERED_SET
        SaveFPRegsMode.kSaveFPRegs
      = 31 + 2 ^ 5 * 31 + 2 ^ 10 * 31 + 2 ^ 15 * 1 + 2 ^ 16 * 1 ∧
    RecordWriteStub.MinorKey (Register.from_code 31) (Register.from_code 31)
        (Register.from_code 31) RememberedSetAction.OMIT_REMEMBERED_SET
        SaveFPRegsMode.kSaveFPRegs < 2 ^ 17 ∧
    RememberedSetAction.OMIT_REMEMBERED_SET.toNat < 2 ∧
    SaveFPRegsMode.kSaveFPRegs.toNat < 2) :=
  ⟨by decide,
    RecordWriteStub.key_layout 31 31 31 RememberedSetAction.OMIT_REMEMBERED_SET
      SaveFPRegsMode.kSaveFPRegs (by decide) (by decide) (by decide)⟩

/-! ## Register lists: membership and counting -/

theorem testBit_clearBits (a b i : Nat) :
    (clearBits a b).testBit i = (a.testBit i && !b.testBit i) := by
  simp only [clearBits, Nat.testBit_xor, Nat.testBit_and]
  cases a.testBit i <;> cases b.testBit i <;> rfl

theorem CPURegList.includesCode_range (type : RegisterType) (size first last code : Nat) :
    (CPURegList.range type size first last).IncludesCode code
      = (decide (code ≤ last) && decide (first ≤ code)) := by
  simp only [CPURegList.IncludesCode, CPURegList.range, testBit_clearBits, Nat.shiftLeft_eq,
    Nat.one_mul, Nat.testBit_two_pow_sub_one]
  have e1 : decide (code < last + 1) = decide (code ≤ last) := by
    simp only [Nat.lt_succ_iff]
  have e2 : (!decide (code < first)) = decide (first ≤ code) := by
    by_cases h : first ≤ code
    · simp [h]
    · simp [h, Nat.lt_of_not_le h]
  rw [e1, e2]

theorem CPURegList.includesCode_remove (l other : CPURegList) (code : Nat) :
    (l.Remove other).IncludesCode code
      = (l.IncludesCode code && !other.IncludesCode code) := by
  simp only [CPURegList.IncludesCode, CPURegList.Remove, testBit_clearBits]

theorem testBit_one_shiftLeft (c i : Nat) : (1 <<< c).testBit i = decide (c = i) := by
  rw [Nat.shiftLeft_eq, Nat.one_mul, Nat.testBit_two_pow]

theorem CPURegList.includesCode_ofRegisters3 (a b c : Register) (code : Nat) :
    (CPURegList.ofRegisters [a, b, c]).IncludesCode code
      = (decide (a.code = code) || decide (b.code = code) || decide (c.code = code)) := by
  simp only [CPURegList.IncludesCode, CPURegList.ofRegisters, List.foldl_cons, List.foldl_nil,
    Nat.testBit_or, testBit_one_shiftLeft, Nat.zero_testBit, Bool.false_or]

theorem CPURegList.mem_codes (l : CPURegList) (i : Nat) :
    i ∈ l.codes ↔ i < kRegListSizeInBits ∧ l.IncludesCode i = true := by
  simp only [CPURegList.codes, List.mem_filter, List.mem_range, CPURegList.IncludesCode]

theorem CPURegList.codes_pairwise (l : CPURegList) : l.codes.Pairwise (· < ·) :=
  List.Pairwise.filter _ (List.pairwise_lt_range _)

theorem RecordWriteStub.RegisterAllocation.includesCode_pool (tmp : CPURegList) (code : Nat) :
    (GetValidRegistersForAllocation tmp).IncludesCode code
      = (decide (code ≤ 25) && !tmp.IncludesCode code) := by
  simp only [GetValidRegistersForAllocation, CPURegList.includesCode_remove,
    CPURegList.includesCode_range, Nat.zero_le, decide_True, Bool.and_true]

theorem RecordWriteStub.RegisterAllocation.includesCode_available (tmp : CPURegList)
    (object address scratch : Register) (code : Nat) :
    (available tmp object address scratch).IncludesCode code
      = (decide (code ≤ 25) && !tmp.IncludesCode code &&
          !(decide (object.code = code) || decide (address.code = code) ||
            decide (scratch.code = code))) := by
  simp only [available, CPURegList.includesCode_remove, includesCode_pool,
    CPURegList.includesCode_ofRegisters3]

theorem RecordWriteStub.RegisterAllocation.includes_reserved (r : Register) :
    reserved.Includes r = (decide (r.code ≤ 31) && decide (26 ≤ r.code)) := by
  simp only [reserved, CPURegList.Includes, CPURegList.includesCode_range]

/-- C3: a register in the list returned by `GetValidRegistersForAllocation()`
has a code in 0..25, so it is none of the reserved registers x26 to x31, and it
is not in `MacroAssembler::DefaultTmpList()`. -/
theorem RecordWriteStub.RegisterAllocation.valid_registers_exclude_reserved_and_tmp
    (DefaultTmpList : CPURegList) (code : Nat)
    (h : (GetValidRegistersForAllocation DefaultTmpList).IncludesCode code = true) :
    code ≤ 25 ∧ code ∉ [26, 27, 28, 29, 30, 31] ∧ reserved.IncludesCode code = false ∧
      DefaultTmpList.IncludesCode code = false := by
  rw [includesCode_pool] at h
  simp only [Bool.and_eq_true, decide_eq_true_eq, Bool.not_eq_true'] at h
  obtain ⟨h25, htmp⟩ := h
  refine ⟨h25, ?_, ?_, htmp⟩
  · simp only [List.mem_cons, List.mem_singleton, List.not_mem_nil, or_false]
    omega
  · simp only [reserved, CPURegList.includesCode_range, Bool.and_eq_false_imp,
      decide_eq_true_eq, decide_eq_false_iff_not]
    omega

/-- C3 on arm64: with `ip0` and `ip1` as the assembler's scratch registers,
x15 is allocatable, and it is neither reserved nor a scratch register. -/
theorem RecordWriteStub.RegisterAllocation.valid_registers_exclude_reserved_and_tmp_witness :
    (GetValidRegistersForAllocation ip0_ip1).IncludesCode 15 = true ∧
    (15 ≤ 25 ∧ 15 ∉ [26, 27, 28, 29, 30, 31] ∧ reserved.IncludesCode 15 = false ∧
      ip0_ip1.IncludesCode 15 = false) :=
  ⟨by decide, valid_registers_exclude_reserved_and_tmp ip0_ip1 15 (by decide)⟩

theorem countP_le_countP_add {p q r : Nat → Bool} (h : ∀ i, p i = true → q i = true ∨ r i = true)
    (l : List Nat) : l.countP p ≤ l.countP q + l.countP r := by
  induction l with
  | nil => simp
  | cons a l ih =>
    simp only [List.countP_cons]
    have ha := h a
    cases hp : p a <;> cases hq : q a <;> cases hr : r a <;> simp_all <;> omega

theorem countP_eq_code_le_one (c n : Nat) :
    (List.range n).countP (fun i => decide (c = i)) ≤ 1 := by
  have h : (List.range n).countP (fun i => decide (c = i)) = (List.range n).count c := by
    rw [List.count_eq_countP]
    apply List.countP_congr
    intro x _
    simp only [decide_eq_true_eq, beq_iff_eq]
    exact eq_comm
  rw [h]
  exact List.nodup_iff_count_le_one.mp (List.nodup_range n) c

theorem CPURegList.count_eq_countP (l : CPURegList) :
    l.Count = (List.range kRegListSizeInBits).countP (fun i => l.IncludesCode i) := by
  simp only [CPURegList.Count, CPURegList.codes, CPURegList.IncludesCode,
    List.countP_eq_length_filter]

theorem RecordWriteStub.RegisterAllocation.count_pool_le (tmp : CPURegList)
    (object address scratch : Register) :
    (GetValidRegistersForAllocation tmp).Count
      ≤ (available tmp object address scratch).Count + 3 := by
  rw [CPURegList.count_eq_countP, CPURegList.count_eq_countP]
  have h1 := countP_le_countP_add
    (p := fun i => (GetValidRegistersForAllocation tmp).IncludesCode i)
    (q := fun i => (available tmp object address scratch).IncludesCode i)
    (r := fun i => decide (object.code = i) || decide (address.code = i) ||
      decide (scratch.code = i))
    (by
      intro i hi
      simp only [includesCode_available]
      simp only [includesCode_pool] at hi
      rw [hi]
      cases (decide (object.code = i) || decide (address.code = i) ||
        decide (scratch.code = i)) <;> simp)
    (List.range kRegListSizeInBits)
  have h2 := countP_le_countP_add
    (p := fun i => decide (object.code = i) || decide (address.code = i) ||
      decide (scratch.code = i))
    (q := fun i => decide (object.code = i) || decide (address.code = i))
    (r := fun i => decide (scratch.code = i))
    (by intro i hi; simpa only [Bool.or_eq_true] using hi)
    (List.range kRegListSizeInBits)
  have h3 := countP_le_countP_add
    (p := fun i => decide (object.code = i) || decide (address.code = i))
    (q := fun i => decide (object.code = i))
    (r := fun i => decide (address.code = i))
    (by intro i hi; simpa only [Bool.or_eq_true] using hi)
    (List.range kRegListSizeInBits)
  have k1 := countP_eq_code_le_one object.code kRegListSizeInBits
  have k2 := countP_eq_code_le_one address.code kRegListSizeInBits
  have k3 := countP_eq_code_le_one scratch.code kRegListSizeInBits
  omega

/-- C8: with `ip0` and `ip1` (x16, x17) as `MacroAssembler::DefaultTmpList()`,
the pool returned by `GetValidRegistersForAllocation()` has 24 registers, and
for every choice of object, address and scratch registers, distinct or not, at
most 3 of them are removed: at least 21, so at least 2, remain. -/
theorem RecordWriteStub.RegisterAllocation.two_scratch_registers_remain
    (object address scratch : Register) :
    (GetValidRegistersForAllocation ip0_ip1).Count = 24 ∧
    (GetValidRegistersForAllocation ip0_ip1).Count
      ≤ (available ip0_ip1 object address scratch).Count + 3 ∧
    2 ≤ (available ip0_ip1 object address scratch).Count := by
  have h24 : (GetValidRegistersForAllocation ip0_ip1).Count = 24 := by decide
  have h := count_pool_le ip0_ip1 object address scratch
  refine ⟨h24, h, ?_⟩
  omega

/-! ## The register plan: what the constructor selects -/

theorem CPURegList.codes_clear (l : CPURegList) (a : Nat) :
    ({ l with list := clearBits l.list (1 <<< a) } : CPURegList).codes
      = l.codes.filter (fun i => !decide (a = i)) := by
  simp only [CPURegList.codes, List.filter_filter, testBit_clearBits, testBit_one_shiftLeft]
  apply List.filter_congr
  intro x _
  exact Bool.and_comm _ _

theorem CPURegList.popLowestIndex_cons (l : CPURegList) (a : Nat) (rest : List Nat)
    (h : l.codes = a :: rest) :
    l.PopLowestIndex.1 = ⟨a, l.size⟩ ∧ l.PopLowestIndex.2.codes = rest ∧
      l.PopLowestIndex.2.size = l.size := by
  have hp := l.codes_pairwise
  rw [h] at hp
  have hlt : ∀ c ∈ rest, a < c := (List.pairwise_cons.mp hp).1
  have hpop : l.PopLowestIndex
      = (⟨a, l.size⟩, { l with list := clearBits l.list (1 <<< a) }) := by
    simp only [CPURegList.PopLowestIndex, h]
  rw [hpop]
  refine ⟨rfl, ?_, rfl⟩
  rw [CPURegList.codes_clear, h, List.filter_cons]
  simp only [decide_True, Bool.not_true, Bool.false_eq_true, if_false]
  rw [List.filter_eq_self]
  intro c hc
  have := hlt c hc
  simp only [Bool.not_eq_true', decide_eq_false_iff_not]
  omega

theorem RecordWriteStub.RegisterAllocation.create_eq_some (t : Target)
    (object address scratch : Register) (ra : RegisterAllocation)
    (h : create t object address scratch = some ra) :
    ∃ a b rest, (available t.DefaultTmpList object address scratch).codes = a :: b :: rest ∧
      ra = { object_ := object, address_ := address, scratch0_ := scratch,
             scratch1_ := ⟨a, kXRegSizeInBits⟩, scratch2_ := ⟨b, kXRegSizeInBits⟩,
             saved_regs_ := t.kCallerSaved, saved_fp_regs_ := t.kCallerSavedFP } := by
  unfold create at h
  split at h
  · exact absurd h (by simp)
  · simp only at h
    split at h
    · exact absurd h (by simp)
    · rename_i hcount
      have hsize : (available t.DefaultTmpList object address scratch).size
          = kXRegSizeInBits := rfl
      rcases hc : (available t.DefaultTmpList object address scratch).codes with _ | ⟨a, tl⟩
      · simp [CPURegList.Count, hc] at hcount
      · rcases tl with _ | ⟨b, rest⟩
        · simp [CPURegList.Count, hc] at hcount
        · obtain ⟨h1, h2, h3⟩ := CPURegList.popLowestIndex_cons _ a (b :: rest) hc
          obtain ⟨h4, _, _⟩ := CPURegList.popLowestIndex_cons _ b rest h2
          refine ⟨a, b, rest, rfl, ?_⟩
          rw [h1, h4, h3, hsize] at h
          exact (Option.some.inj h).symm

theorem RecordWriteStub.RegisterAllocation.create_isSome_arm64
    (object address scratch : Register)
    (ho : object.code ≤ 25) (ha : address.code ≤ 25) (hs : scratch.code ≤ 25) :
    (create arm64 object address scratch).isSome = true := by
  have hres : (reserved.Includes object || reserved.Includes address ||
      reserved.Includes scratch) = false := by
    simp only [includes_reserved, Bool.or_eq_false_iff, Bool.and_eq_false_imp,
      decide_eq_true_eq, decide_eq_false_iff_not]
    omega
  have h24 : (GetValidRegistersForAllocation ip0_ip1).Count = 24 := by decide
  have hcount := count_pool_le ip0_ip1 object address scratch
  have hge : ¬ (available arm64.DefaultTmpList object address scratch).Count < 2 := by
    show ¬ (available ip0_ip1 object address scratch).Count < 2
    omega
  unfold create
  rw [hres]
  simp only [Bool.false_eq_true, if_false, hge, Option.isSome_some]

/-- C4: when `RegisterAllocation(object, address, scratch)` succeeds, the
plan keeps the three given registers, and its `scratch1` and `scratch2` have
codes in 0..25 (so neither is a reserved register x26..x31), differ from
object, address and scratch0, and are the two lowest-numbered registers of
`GetValidRegistersForAllocation()` minus \{object, address, scratch0\}. -/
theorem RecordWriteStub.RegisterAllocation.scratch_registers_selected (t : Target)
    (object address scratch : Register) (ra : RegisterAllocation)
    (h : create t object address scratch = some ra) :
    (ra.object_ = object ∧ ra.address_ = address ∧ ra.scratch0_ = scratch) ∧
    (ra.scratch1_.code ≤ 25 ∧ ra.scratch2_.code ≤ 25) ∧
    (reserved.Includes ra.scratch1_ = false ∧ reserved.Includes ra.scratch2_ = false) ∧
    (ra.scratch1_.code ≠ object.code ∧ ra.scratch1_.code ≠ address.code ∧
      ra.scratch1_.code ≠ scratch.code) ∧
    (ra.scratch2_.code ≠ object.code ∧ ra.scratch2_.code ≠ address.code ∧
      ra.scratch2_.code ≠ scratch.code) ∧
    ((available t.DefaultTmpList object address scratch).Includes ra.scratch1_ = true ∧
      (available t.DefaultTmpList object address scratch).Includes ra.scratch2_ = true) ∧
    ra.scratch1_.code < ra.scratch2_.code ∧
    (∀ code, (available t.DefaultTmpList object address scratch).IncludesCode code = true →
      code = ra.scratch1_.code ∨ code = ra.scratch2_.code ∨ ra.scratch2_.code < code) := by
  obtain ⟨a, b, rest, hc, rfl⟩ := create_eq_some t object address scratch ra h
  have hp := (available t.DefaultTmpList object address scratch).codes_pairwise
  rw [hc] at hp
  obtain ⟨ha_lt, hp2⟩ := List.pairwise_cons.mp hp
  obtain ⟨hb_lt, _⟩ := List.pairwise_cons.mp hp2
  have hmem : ∀ c, c ∈ a :: b :: rest ↔
      c < kRegListSizeInBits ∧
        (available t.DefaultTmpList object address scratch).IncludesCode c = true := by
    intro c
    rw [← hc]
    exact CPURegList.mem_codes _ c
  have hinc : ∀ c, (available t.DefaultTmpList object address scratch).IncludesCode c = true →
      c ≤ 25 ∧ object.code ≠ c ∧ address.code ≠ c ∧ scratch.code ≠ c := by
    intro c hcin
    rw [includesCode_available] at hcin
    simp only [Bool.and_eq_true, decide_eq_true_eq, Bool.not_eq_true', Bool.or_eq_false_iff,
      decide_eq_false_iff_not] at hcin
    exact ⟨hcin.1.1, hcin.2.1.1, hcin.2.1.2, hcin.2.2⟩
  have ha := ((hmem a).mp (by simp)).2
  have hb := ((hmem b).mp (by simp)).2
  obtain ⟨a25, ao, aa, as⟩ := hinc a ha
  obtain ⟨b25, bo, ba, bs⟩ := hinc b hb
  have hres : ∀ c, c ≤ 25 → reserved.Includes ⟨c, kXRegSizeInBits⟩ = false := by
    intro c hc25
    rw [includes_reserved]
    simp only [Register.code, Bool.and_eq_false_imp, decide_eq_true_eq, decide_eq_false_iff_not]
    omega
  refine ⟨⟨rfl, rfl, rfl⟩, ⟨a25, b25⟩, ⟨hres a a25, hres b b25⟩,
    ⟨Ne.symm ao, Ne.symm aa, Ne.symm as⟩, ⟨Ne.symm bo, Ne.symm ba, Ne.symm bs⟩, ⟨ha, hb⟩,
    ha_lt b (by simp), ?_⟩
  · intro c hcin
    have hc25 := (hinc c hcin).1
    have hcm : c ∈ a :: b :: rest := (hmem c).mpr ⟨by simp only [kRegListSizeInBits]; omega, hcin⟩
    rcases List.mem_cons.mp hcm with h1 | h1
    · exact Or.inl h1
    · rcases List.mem_cons.mp h1 with h2 | h2
      · exact Or.inr (Or.inl h2)
      · exact Or.inr (Or.inr (hb_lt c h2))

/-- C4 on arm64 with object = x1, address = x2, scratch0 = x3: the constructor
succeeds and selects x0 and x4. -/
theorem RecordWriteStub.RegisterAllocation.scratch_registers_selected_witness :
    create arm64 (Register.from_code 1) (Register.from_code 2) (Register.from_code 3)
      = some planX1X2X3 ∧
    ((planX1X2X3.object_ = Register.from_code 1 ∧ planX1X2X3.address_ = Register.from_code 2 ∧
      planX1X2X3.scratch0_ = Register.from_code 3) ∧
    (planX1X2X3.scratch1_.code ≤ 25 ∧ planX1X2X3.scratch2_.code ≤ 25) ∧
    (reserved.Includes planX1X2X3.scratch1_ = false ∧
      reserved.Includes planX1X2X3.scratch2_ = false) ∧
    (planX1X2X3.scratch1_.code ≠ (Register.from_code 1).code ∧
      planX1X2X3.scratch1_.code ≠ (Register.from_code 2).code ∧
      planX1X2X3.scratch1_.code ≠ (Register.from_code 3).code) ∧
    (planX1X2X3.scratch2_.code ≠ (Register.from_code 1).code ∧
      planX1X2X3.scratch2_.code ≠ (Register.from_code 2).code ∧
      planX1X2X3.scratch2_.code ≠ (Register.from_code 3).code) ∧
    ((available arm64.DefaultTmpList (Register.from_code 1) (Register.from_code 2)
        (Register.from_code 3)).Includes planX1X2X3.scratch1_ = true ∧
      (available arm64.DefaultTmpList (Register.from_code 1) (Register.from_code 2)
        (Register.from_code 3)).Includes planX1X2X3.scratch2_ = true) ∧
    planX1X2X3.scratch1_.code < planX1X2X3.scratch2_.code ∧
    (∀ code, (available arm64.DefaultTmpList (Register.from_code 1) (Register.from_code 2)
        (Register.from_code 3)).IncludesCode code = true →
      code = planX1X2X3.scratch1_.code ∨ code = planX1X2X3.scratch2_.code ∨
        planX1X2X3.scratch2_.code < code)) :=
  ⟨by decide,
    scratch_registers_selected arm64 (Register.from_code 1) (Register.from_code 2)
      (Register.from_code 3) planX1X2X3 (by decide)⟩

/-! ## Rejected constructions -/

/-- C5: when one of object, value and address is a reserved register (code
in 26..31), the `RegisterAllocation` constructor fails, and with it the
`RecordWriteStub` constructor: no stub, no minor key and no register plan is
produced. -/
theorem RecordWriteStub.reserved_register_rejected (t : Target)
    (object value address : Register) (remembered_set_action : RememberedSetAction)
    (fp_mode : SaveFPRegsMode)
    (h : (26 ≤ object.code ∧ object.code ≤ 31) ∨ (26 ≤ value.code ∧ value.code ≤ 31) ∨
      (26 ≤ address.code ∧ address.code ≤ 31)) :
    RegisterAllocation.create t object address value = none ∧
    RecordWriteStub.create t object value address remembered_set_action fp_mode = none := by
  have hres : (RegisterAllocation.reserved.Includes object ||
      RegisterAllocation.reserved.Includes address ||
      RegisterAllocation.reserved.Includes value) = true := by
    simp only [RegisterAllocation.includes_reserved, Bool.or_eq_true, Bool.and_eq_true,
      decide_eq_true_eq]
    omega
  have hra : RegisterAllocation.create t object address value = none := by
    unfold RegisterAllocation.create
    rw [if_pos hres]
  refine ⟨hra, ?_⟩
  unfold RecordWriteStub.create
  rw [hra]

/-- C5 on arm64 with the context register x27 as the value register. -/
theorem RecordWriteStub.reserved_register_rejected_witness :
    ((26 ≤ (Register.from_code 1).code ∧ (Register.from_code 1).code ≤ 31) ∨
      (26 ≤ (Register.from_code 27).code ∧ (Register.from_code 27).code ≤ 31) ∨
      (26 ≤ (Register.from_code 2).code ∧ (Register.from_code 2).code ≤ 31)) ∧
    (RegisterAllocation.create arm64 (Register.from_code 1) (Register.from_code 2)
        (Register.from_code 27) = none ∧
      RecordWriteStub.create arm64 (Register.from_code 1) (Register.from_code 27)
        (Register.from_code 2) RememberedSetAction.EMIT_REMEMBERED_SET
        SaveFPRegsMode.kDontSaveFPRegs = none) :=
  ⟨by decide,
    RecordWriteStub.reserved_register_rejected arm64 (Register.from_code 1)
      (Register.from_code 27) (Register.from_code 2) RememberedSetAction.EMIT_REMEMBERED_SET
      SaveFPRegsMode.kDontSaveFPRegs (by decide)⟩

/-! ## Save and restore sequences -/

theorem Machine.pop1_push1 (m : Machine) (type : RegisterType) (code : Nat) :
    (m.push1 type code).pop1 type code = some m := by
  cases m with
  | mk x d stack =>
    cases type
    · simp only [Machine.push1, Machine.pop1, Machine.read, Machine.write, Option.some.injEq,
        Machine.mk.injEq, and_true, true_and]
      funext c
      by_cases hc : c = code
      · simp [hc]
      · simp [hc]
    · simp only [Machine.push1, Machine.pop1, Machine.read, Machine.write, Option.some.injEq,
        Machine.mk.injEq, and_true, true_and]
      funext c
      by_cases hc : c = code
      · simp [hc]
      · simp [hc]

theorem Machine.popCodes_pushCodes (type : RegisterType) (cs : List Nat) (m : Machine) :
    Machine.popCodes type cs (Machine.pushCodes type cs m) = some m := by
  induction cs generalizing m with
  | nil => rfl
  | cons c cs ih =>
    simp only [Machine.pushCodes, Machine.popCodes, ih, Machine.pop1_push1]

theorem Machine.run_append (is js : List Instr) (m : Machine) :
    Machine.run (is ++ js) m
      = match Machine.run is m with
        | none => none
        | some m1 => Machine.run js m1 := by
  induction is generalizing m with
  | nil => rfl
  | cons i is ih =>
    simp only [List.cons_append, Machine.run]
    cases Machine.exec i m with
    | none => rfl
    | some m1 => exact ih m1

/-- C6: `Save` emits `Push(scratch1, scratch2)` and `Restore` emits
`Pop(scratch2, scratch1)`, the same pair in reverse order; on the stack machine
where `Push(a, b)` pushes `a` then `b` and `Pop(b, a)` pops into `b` then into
`a`, running the code of `Save` followed by the code of `Restore` succeeds and
gives back the machine state it started from: scratch1, scratch2, every other
register and the stack are as before. This holds for every plan, in particular
when scratch1 and scratch2 differ. -/
theorem RecordWriteStub.RegisterAllocation.save_restore_roundtrip
    (regs : RegisterAllocation) (m : Machine) :
    MacroAssembler.emitted (fun masm => regs.Restore (regs.Save masm))
      = [Instr.Push regs.scratch1_ regs.scratch2_, Instr.Pop regs.scratch2_ regs.scratch1_] ∧
    MacroAssembler.emitted regs.Restore
      = ((MacroAssembler.emitted regs.Save).reverse).map Instr.inverse ∧
    Machine.run (MacroAssembler.emitted (fun masm => regs.Restore (regs.Save masm))) m
      = some m := by
  refine ⟨rfl, rfl, ?_⟩
  simp only [MacroAssembler.emitted, Restore, Save, MacroAssembler.Push, MacroAssembler.Pop,
    List.nil_append, List.cons_append, Machine.run, Machine.exec, Machine.pop1_push1]

theorem RecordWriteStub.RegisterAllocation.emitted_save_caller (regs : RegisterAllocation)
    (mode : SaveFPRegsMode) :
    MacroAssembler.emitted (fun masm => regs.SaveCallerSaveRegisters masm mode)
      = Instr.PushCPURegList regs.saved_regs_ ::
          (if mode = SaveFPRegsMode.kSaveFPRegs then [Instr.PushCPURegList regs.saved_fp_regs_]
           else []) := by
  cases mode <;> rfl

theorem RecordWriteStub.RegisterAllocation.emitted_restore_caller (regs : RegisterAllocation)
    (mode : SaveFPRegsMode) :
    MacroAssembler.emitted (fun masm => regs.RestoreCallerSaveRegisters masm mode)
      = (if mode = SaveFPRegsMode.kSaveFPRegs then [Instr.PopCPURegList regs.saved_fp_regs_]
         else []) ++ [Instr.PopCPURegList regs.saved_regs_] := by
  cases mode <;> rfl

/-- C7: for each `SaveFPRegsMode`, the code of `RestoreCallerSaveRegisters`
is the code of `SaveCallerSaveRegisters` reversed with every push turned into
the pop of the same list (the floating-point list first when it was pushed,
then the general-purpose list), and running the save code followed by the
restore code succeeds and gives back the machine state it started from: all
registers of `saved_regs_` and `saved_fp_regs_` and the stack are unchanged. -/
theorem RecordWriteStub.RegisterAllocation.caller_save_restore_roundtrip
    (regs : RegisterAllocation) (mode : SaveFPRegsMode) (m : Machine) :
    MacroAssembler.emitted (fun masm => regs.RestoreCallerSaveRegisters masm mode)
      = ((MacroAssembler.emitted
          (fun masm => regs.SaveCallerSaveRegisters masm mode)).reverse).map Instr.inverse ∧
    Machine.run
        (MacroAssembler.emitted (fun masm => regs.SaveCallerSaveRegisters masm mode) ++
          MacroAssembler.emitted (fun masm => regs.RestoreCallerSaveRegisters masm mode)) m
      = some m ∧
    Machine.run
        (MacroAssembler.emitted (fun masm =>
          regs.RestoreCallerSaveRegisters (regs.SaveCallerSaveRegisters masm mode) mode)) m
      = some m := by
  have hcat : MacroAssembler.emitted (fun masm =>
        regs.RestoreCallerSaveRegisters (regs.SaveCallerSaveRegisters masm mode) mode)
      = MacroAssembler.emitted (fun masm => regs.SaveCallerSaveRegisters masm mode) ++
          MacroAssembler.emitted (fun masm => regs.RestoreCallerSaveRegisters masm mode) := by
    cases mode <;> rfl
  have hrun : Machine.run
      (MacroAssembler.emitted (fun masm => regs.SaveCallerSaveRegisters masm mode) ++
        MacroAssembler.emitted (fun masm => regs.RestoreCallerSaveRegisters masm mode)) m
      = some m := by
    rw [emitted_save_caller, emitted_restore_caller]
    cases mode
    · simp only [reduceCtorEq, if_false, List.nil_append, List.cons_append, Machine.run,
        Machine.exec, Machine.popCodes_pushCodes]
    · simp only [if_true, List.nil_append, List.cons_append, Machine.run,
        Machine.exec, Machine.popCodes_pushCodes]
  refine ⟨?_, hrun, ?_⟩
  · cases mode <;> rfl
  · rw [hcat]; exact hrun

/-! ## The barrier protocol -/

/-- C9: for an invocation whose fast check is false, whatever the policy,
the barrier returns; under `INCREMENTAL_COMPACTION` it has made one call into
the marker and one store-buffer append of (object, address); under
`INCREMENTAL` it has made the marker call and no store-buffer append. -/
theorem RecordWriteStub.slow_path_marks_and_records
    (on_no_need : OnNoNeedToInformIncrementalMarker) (i : Invocation) (c : Collector)
    (h : fast_check c i = false) :
    ((Generate Mode.INCREMENTAL_COMPACTION on_no_need i c).1 = BarrierState.Done ∧
      (Generate Mode.INCREMENTAL_COMPACTION on_no_need i c).2.mark_worklist
        = c.mark_worklist ++ [i.value] ∧
      (Generate Mode.INCREMENTAL_COMPACTION on_no_need i c).2.store_buffer
        = c.store_buffer ++ [(i.object, i.address)]) ∧
    ((Generate Mode.INCREMENTAL on_no_need i c).1 = BarrierState.Done ∧
      (Generate Mode.INCREMENTAL on_no_need i c).2.mark_worklist
        = c.mark_worklist ++ [i.value] ∧
      (Generate Mode.INCREMENTAL on_no_need i c).2.store_buffer = c.store_buffer) := by
  simp [Generate, kBarrierSteps, runBarrier, step, CheckNeedsToInformIncrementalMarker, h,
    InformIncrementalMarker, Collector.mark_worklist_push, Collector.store_buffer_append]

/-- C9 on a collector that is marking: object 100, slot address 108, value
200. -/
theorem RecordWriteStub.slow_path_marks_and_records_witness :
    fast_check markingCollector ⟨100, 108, 200⟩ = false ∧
    (((Generate Mode.INCREMENTAL_COMPACTION
          OnNoNeedToInformIncrementalMarker.kReturnOnNoNeedToInformIncrementalMarker
          ⟨100, 108, 200⟩ markingCollector).1 = BarrierState.Done ∧
      (Generate Mode.INCREMENTAL_COMPACTION
          OnNoNeedToInformIncrementalMarker.kReturnOnNoNeedToInformIncrementalMarker
          ⟨100, 108, 200⟩ markingCollector).2.mark_worklist
        = markingCollector.mark_worklist ++ [200] ∧
      (Generate Mode.INCREMENTAL_COMPACTION
          OnNoNeedToInformIncrementalMarker.kReturnOnNoNeedToInformIncrementalMarker
          ⟨100, 108, 200⟩ markingCollector).2.store_buffer
        = markingCollector.store_buffer ++ [(100, 108)]) ∧
    ((Generate Mode.INCREMENTAL
          OnNoNeedToInformIncrementalMarker.kReturnOnNoNeedToInformIncrementalMarker
          ⟨100, 108, 200⟩ markingCollector).1 = BarrierState.Done ∧
      (Generate Mode.INCREMENTAL
          OnNoNeedToInformIncrementalMarker.kReturnOnNoNeedToInformIncrementalMarker
          ⟨100, 108, 200⟩ markingCollector).2.mark_worklist
        = markingCollector.mark_worklist ++ [200] ∧
      (Generate Mode.INCREMENTAL
          OnNoNeedToInformIncrementalMarker.kReturnOnNoNeedToInformIncrementalMarker
          ⟨100, 108, 200⟩ markingCollector).2.store_buffer = markingCollector.store_buffer)) :=
  ⟨by decide,
    RecordWriteStub.slow_path_marks_and_records
      OnNoNeedToInformIncrementalMarker.kReturnOnNoNeedToInformIncrementalMarker
      ⟨100, 108, 200⟩ markingCollector (by decide)⟩

/-- C10: under `STORE_BUFFER_ONLY`, for every object, address and value,
every policy and every collector state, the barrier returns having appended
exactly one (object, address) descriptor to the store buffer, and the mark
worklist is as before: the marker is not called. -/
theorem RecordWriteStub.store_buffer_only_records_once
    (on_no_need : OnNoNeedToInformIncrementalMarker) (i : Invocation) (c : Collector) :
    (Generate Mode.STORE_BUFFER_ONLY on_no_need i c).1 = BarrierState.Done ∧
    (Generate Mode.STORE_BUFFER_ONLY on_no_need i c).2.store_buffer
      = c.store_buffer ++ [(i.object, i.address)] ∧
    (Generate Mode.STORE_BUFFER_ONLY on_no_need i c).2.mark_worklist = c.mark_worklist := by
  simp [Generate, kBarrierSteps, runBarrier, step, Collector.store_buffer_append]

/-- C11: under `INCREMENTAL` and under `INCREMENTAL_COMPACTION`, for an
invocation whose fast check is true, the barrier returns without calling the
marker (the mark worklist is as before); with the policy
`kUpdateRememberedSetOnNoNeedToInformIncrementalMarker` it has appended
(object, address) to the store buffer once, with
`kReturnOnNoNeedToInformIncrementalMarker` the store buffer is as before. As
the append changes the store buffer, an append occurs exactly under the update
policy. -/
theorem RecordWriteStub.fast_path_never_marks (mode : Mode)
    (on_no_need : OnNoNeedToInformIncrementalMarker) (i : Invocation) (c : Collector)
    (hmode : mode = Mode.INCREMENTAL ∨ mode = Mode.INCREMENTAL_COMPACTION)
    (h : fast_check c i = true) :
    (Generate mode on_no_need i c).1 = BarrierState.Done ∧
    (Generate mode on_no_need i c).2.mark_worklist = c.mark_worklist ∧
    (Generate mode OnNoNeedToInformIncrementalMarker.kReturnOnNoNeedToInformIncrementalMarker
        i c).2.store_buffer = c.store_buffer ∧
    (Generate mode
        OnNoNeedToInformIncrementalMarker.kUpdateRememberedSetOnNoNeedToInformIncrementalMarker
        i c).2.store_buffer = c.store_buffer ++ [(i.object, i.address)] ∧
    ((Generate mode on_no_need i c).2.store_buffer ≠ c.store_buffer ↔
      on_no_need
        = OnNoNeedToInformIncrementalMarker.kUpdateRememberedSetOnNoNeedToInformIncrementalMarker)
    := by
  rcases hmode with rfl | rfl <;> cases on_no_need <;>
    simp [Generate, kBarrierSteps, runBarrier, step, CheckNeedsToInformIncrementalMarker, h,
      Collector.store_buffer_append]

/-- C11 on a collector that is not marking, under `INCREMENTAL` with the
update policy: object 100, slot address 108, value 200. -/
theorem RecordWriteStub.fast_path_never_marks_witness :
    ((Mode.INCREMENTAL = Mode.INCREMENTAL ∨ Mode.INCREMENTAL = Mode.INCREMENTAL_COMPACTION) ∧
      fast_check idleCollector ⟨100, 108, 200⟩ = true) ∧
    ((Generate Mode.INCREMENTAL
        OnNoNeedToInformIncrementalMarker.kUpdateRememberedSetOnNoNeedToInformIncrementalMarker
        ⟨100, 108, 200⟩ idleCollector).1 = BarrierState.Done ∧
    (Generate Mode.INCREMENTAL
        OnNoNeedToInformIncrementalMarker.kUpdateRememberedSetOnNoNeedToInformIncrementalMarker
        ⟨100, 108, 200⟩ idleCollector).2.mark_worklist = idleCollector.mark_worklist ∧
    (Generate Mode.INCREMENTAL
        OnNoNeedToInformIncrementalMarker.kReturnOnNoNeedToInformIncrementalMarker
        ⟨100, 108, 200⟩ idleCollector).2.store_buffer = idleCollector.store_buffer ∧
    (Generate Mode.INCREMENTAL
        OnNoNeedToInformIncrementalMarker.kUpdateRememberedSetOnNoNeedToInformIncrementalMarker
        ⟨100, 108, 200⟩ idleCollector).2.store_buffer
      = idleCollector.store_buffer ++ [(100, 108)] ∧
    ((Generate Mode.INCREMENTAL
        OnNoNeedToInformIncrementalMarker.kUpdateRememberedSetOnNoNeedToInformIncrementalMarker
        ⟨100, 108, 200⟩ idleCollector).2.store_buffer ≠ idleCollector.store_buffer ↔
      OnNoNeedToInformIncrementalMarker.kUpdateRememberedSetOnNoNeedToInformIncrementalMarker
        = OnNoNeedToInformIncrementalMarker.kUpdateRememberedSetOnNoNeedToInformIncrementalMarker))
    :=
  ⟨⟨by decide, by decide⟩,
    RecordWriteStub.fast_path_never_marks Mode.INCREMENTAL
      OnNoNeedToInformIncrementalMarker.kUpdateRememberedSetOnNoNeedToInformIncrementalMarker
      ⟨100, 108, 200⟩ idleCollector (by decide) (by decide)⟩

/-! ## Mode patching -/

theorem RecordWriteStub.decode_encode_mode (mode : Mode) :
    decode_mode (encode_mode mode) = some mode := by
  cases mode <;> rfl

theorem RecordWriteStub.getMode_patch (stub : Code) (mode : Mode)
    (h : stub.mode_slot < stub.bytes.length) :
    GetMode (Patch stub mode) = some mode := by
  simp only [GetMode, Patch, List.get?_eq_getElem?, List.getElem?_set_self h,
    decode_encode_mode]

theorem RecordWriteStub.patchAll_frame (modes : List Mode) (stub : Code) :
    (PatchAll stub modes).bytes.length = stub.bytes.length ∧
    (PatchAll stub modes).mode_slot = stub.mode_slot ∧
    (∀ offset, offset ≠ stub.mode_slot →
      (PatchAll stub modes).bytes.get? offset = stub.bytes.get? offset) := by
  induction modes generalizing stub with
  | nil => exact ⟨rfl, rfl, fun _ _ => rfl⟩
  | cons mode modes ih =>
    obtain ⟨h1, h2, h3⟩ := ih (Patch stub mode)
    have hstep : PatchAll stub (mode :: modes) = PatchAll (Patch stub mode) modes := rfl
    rw [hstep]
    refine ⟨?_, ?_, ?_⟩
    · rw [h1]; simp only [Patch, List.length_set]
    · rw [h2]; rfl
    · intro offset hne
      rw [h3 offset hne]
      simp only [Patch, List.get?_eq_getElem?]
      exact List.getElem?_set_ne (Ne.symm hne)

/-- C12: for generated code (its mode slot lies inside the code) and each of
the three modes, `GetMode` after `Patch(code, mode)` returns that mode, also
after any earlier sequence of `Patch` calls; and after any sequence of `Patch`
calls the byte length of the code, the position of the slot and every byte
outside the slot are unchanged. -/
theorem RecordWriteStub.patch_mode_roundtrip (stub : Code) (mode : Mode) (modes : List Mode)
    (h : stub.mode_slot < stub.bytes.length) :
    GetMode (Patch stub mode) = some mode ∧
    GetMode (Patch (PatchAll stub modes) mode) = some mode ∧
    (PatchAll stub modes).byte_length = stub.byte_length ∧
    (PatchAll stub modes).mode_slot = stub.mode_slot ∧
    (∀ offset, offset ≠ stub.mode_slot →
      (PatchAll stub modes).bytes.get? offset = stub.bytes.get? offset) := by
  obtain ⟨h1, h2, h3⟩ := patchAll_frame modes stub
  refine ⟨getMode_patch stub mode h, ?_, h1, h2, h3⟩
  apply getMode_patch
  rw [h2, h1]
  exact h

/-- C12 on a sample code object: patched through all three modes and then to
`INCREMENTAL`. -/
theorem RecordWriteStub.patch_mode_roundtrip_witness :
    sampleCode.mode_slot < sampleCode.bytes.length ∧
    (GetMode (Patch sampleCode Mode.INCREMENTAL) = some Mode.INCREMENTAL ∧
    GetMode (Patch (PatchAll sampleCode
        [Mode.INCREMENTAL_COMPACTION, Mode.STORE_BUFFER_ONLY, Mode.INCREMENTAL_COMPACTION])
        Mode.INCREMENTAL) = some Mode.INCREMENTAL ∧
    (PatchAll sampleCode
        [Mode.INCREMENTAL_COMPACTION, Mode.STORE_BUFFER_ONLY, Mode.INCREMENTAL_COMPACTION]
      ).byte_length = sampleCode.byte_length ∧
    (PatchAll sampleCode
        [Mode.INCREMENTAL_COMPACTION, Mode.STORE_BUFFER_ONLY, Mode.INCREMENTAL_COMPACTION]
      ).mode_slot = sampleCode.mode_slot ∧
    (∀ offset, offset ≠ sampleCode.mode_slot →
      (PatchAll sampleCode
        [Mode.INCREMENTAL_COMPACTION, Mode.STORE_BUFFER_ONLY, Mode.INCREMENTAL_COMPACTION]
      ).bytes.get? offset = sampleCode.bytes.get? offset)) :=
  ⟨by decide,
    RecordWriteStub.patch_mode_roundtrip sampleCode Mode.INCREMENTAL
      [Mode.INCREMENTAL_COMPACTION, Mode.STORE_BUFFER_ONLY, Mode.INCREMENTAL_COMPACTION]
      (by decide)⟩

/-! ## The negative lookup -/

theorem NameDictionaryLookupStub.probe_done_iff (properties : NameDictionary)
    (probe_offset : Nat → Nat) (name : Name) (budget position : Nat) :
    probe properties probe_offset name budget position = Label.done ↔
      ∃ k, k < budget ∧
        slot_at properties probe_offset name (position + k) = Slot.Empty ∧
        ∀ j, j < k → ∃ key,
          slot_at properties probe_offset name (position + j) = Slot.Entry key ∧ key ≠ name := by
  induction budget generalizing position with
  | zero =>
    constructor
    · intro h
      simp [probe] at h
    · rintro ⟨k, hk, _⟩
      omega
  | succ budget ih =>
    unfold probe
    cases hs : slot_at properties probe_offset name position with
    | Empty =>
      simp only [true_iff]
      exact ⟨0, by omega, by simpa using hs, fun j hj => by omega⟩
    | Entry key =>
      simp only
      by_cases hkey : key = name
      · rw [if_pos hkey]
        constructor
        · intro h
          exact absurd h (by decide)
        · rintro ⟨k, _, hempty, hbefore⟩
          rcases Nat.eq_zero_or_pos k with rfl | hpos
          · rw [Nat.add_zero, hs] at hempty
            exact absurd hempty (by simp)
          · obtain ⟨key2, h1, h2⟩ := hbefore 0 hpos
            rw [Nat.add_zero, hs] at h1
            exact absurd (hkey ▸ (Slot.Entry.inj h1).symm) h2
      · rw [if_neg hkey, ih (position + 1)]
        constructor
        · rintro ⟨k, hk, hempty, hbefore⟩
          refine ⟨k + 1, by omega, ?_, ?_⟩
          · rw [← hempty]; congr 1; omega
          · intro j hj
            rcases Nat.eq_zero_or_pos j with rfl | hpos
            · exact ⟨key, by simpa using hs, hkey⟩
            · obtain ⟨key2, h1, h2⟩ := hbefore (j - 1) (by omega)
              refine ⟨key2, ?_, h2⟩
              rw [← h1]; congr 1; omega
        · rintro ⟨k, hk, hempty, hbefore⟩
          rcases Nat.eq_zero_or_pos k with rfl | hpos
          · rw [Nat.add_zero, hs] at hempty
            exact absurd hempty (by simp)
          · refine ⟨k - 1, by omega, ?_, ?_⟩
            · rw [← hempty]; congr 1; omega
            · intro j hj
              obtain ⟨key2, h1, h2⟩ := hbefore (j + 1) (by omega)
              refine ⟨key2, ?_, h2⟩
              rw [← h1]; congr 1; omega

theorem NameDictionaryLookupStub.label_eq_miss_of_ne_done (l : Label)
    (h : l ≠ Label.done) : l = Label.miss := by
  cases l with
  | miss => rfl
  | done => exact absurd rfl h

theorem NameDictionaryLookupStub.miss_of_reachable (properties : NameDictionary)
    (probe_offset : Nat → Nat) (name : Name)
    (h : ∃ p, slot_at properties probe_offset name p = Slot.Entry name ∧
      ∀ j, j < p → slot_at properties probe_offset name j ≠ Slot.Empty) :
    GenerateNegativeLookup properties probe_offset name = Label.miss := by
  apply label_eq_miss_of_ne_done
  intro hdone
  obtain ⟨p, hp, hbefore⟩ := h
  obtain ⟨k, _, hempty, hnomatch⟩ :=
    (probe_done_iff properties probe_offset name kInlinedProbes 0).mp hdone
  rw [Nat.zero_add] at hempty
  rcases Nat.lt_trichotomy p k with hlt | heq | hgt
  · obtain ⟨key, h1, h2⟩ := hnomatch p hlt
    rw [Nat.zero_add, hp] at h1
    exact h2 (Slot.Entry.inj h1).symm
  · rw [heq, hempty] at hp
    exact absurd hp (by simp)
  · exact hbefore k hgt hempty

/-- C13: the code emitted by `GenerateNegativeLookup` branches to `done`
exactly when one of the first `kInlinedProbes` (4) positions of the name's
probe sequence holds an empty slot and every earlier position holds another
key. It branches to `miss` when an inline probe finds the name before any
empty slot, when all 4 inline probes hit non-empty slots, and whenever the name
sits anywhere on its probe sequence before the first empty slot (at position 6,
say): absence is never reported for a name that the table's probing holds. -/
theorem NameDictionaryLookupStub.negative_lookup_sound (properties : NameDictionary)
    (probe_offset : Nat → Nat) (name : Name) :
    (GenerateNegativeLookup properties probe_offset name = Label.done ↔
      ∃ k, k < kInlinedProbes ∧ slot_at properties probe_offset name k = Slot.Empty ∧
        ∀ j, j < k → ∃ key,
          slot_at properties probe_offset name j = Slot.Entry key ∧ key ≠ name) ∧
    ((∃ k, k < kInlinedProbes ∧ slot_at properties probe_offset name k = Slot.Entry name ∧
        ∀ j, j < k → slot_at properties probe_offset name j ≠ Slot.Empty) →
      GenerateNegativeLookup properties probe_offset name = Label.miss) ∧
    ((∀ j, j < kInlinedProbes → slot_at properties probe_offset name j ≠ Slot.Empty) →
      GenerateNegativeLookup properties probe_offset name = Label.miss) ∧
    ((∃ p, slot_at properties probe_offset name p = Slot.Entry name ∧
        ∀ j, j < p → slot_at properties probe_offset name j ≠ Slot.Empty) →
      GenerateNegativeLookup properties probe_offset name = Label.miss) := by
  refine ⟨?_, ?_, ?_, miss_of_reachable properties probe_offset name⟩
  · have h := probe_done_iff properties probe_offset name kInlinedProbes 0
    simp only [Nat.zero_add] at h
    exact h
  · rintro ⟨k, _, hk, hbefore⟩
    exact miss_of_reachable properties probe_offset name ⟨k, hk, hbefore⟩
  · intro hfull
    apply label_eq_miss_of_ne_done
    intro hdone
    obtain ⟨k, hk, hempty, _⟩ :=
      (probe_done_iff properties probe_offset name kInlinedProbes 0).mp hdone
    rw [Nat.zero_add] at hempty
    exact hfull k hk hempty

/-- C13, the scenarios of the spec under linear probing: in an 8-slot table
with no entry at the first four probe positions of "x" the lookup branches to
`done`; in an 8-slot table where "x" sits at probe position 6 it branches to
`miss`. -/
theorem NameDictionaryLookupStub.negative_lookup_sound_witness :
    ((∃ p, slot_at crowdedTable (fun i => i) nameX p = Slot.Entry nameX ∧
      ∀ j, j < p → slot_at crowdedTable (fun i => i) nameX j ≠ Slot.Empty) ∧
    slot_at crowdedTable (fun i => i) nameX 6 = Slot.Entry nameX ∧
    GenerateNegativeLookup crowdedTable (fun i => i) nameX = Label.miss) ∧
    ((∃ k, k < kInlinedProbes ∧ slot_at sparseTable (fun i => i) nameX k = Slot.Empty ∧
        ∀ j, j < k → ∃ key,
          slot_at sparseTable (fun i => i) nameX j = Slot.Entry key ∧ key ≠ nameX) ∧
    GenerateNegativeLookup sparseTable (fun i => i) nameX = Label.done) :=
  ⟨⟨⟨6, by decide, by decide⟩, by decide,
    (negative_lookup_sound crowdedTable (fun i => i) nameX).2.2.2 ⟨6, by decide, by decide⟩⟩,
   ⟨⟨0, by decide, by decide, fun j hj => absurd hj (Nat.not_lt_zero j)⟩,
    (negative_lookup_sound sparseTable (fun i => i) nameX).1.mpr
      ⟨0, by decide, by decide, fun j hj => absurd hj (Nat.not_lt_zero j)⟩⟩⟩

/-! ## The allocatable pool -/

/-- C14, as stated, fails on arm64: x16 lies in x0..x25 but is not in the pool
returned by `GetValidRegistersForAllocation()`, because the assembler's scratch
registers are removed from it; so the pool is not exactly x0..x25. -/
theorem RecordWriteStub.RegisterAllocation.pool_is_not_x0_to_x25 :
    ¬ (∀ code, (GetValidRegistersForAllocation ip0_ip1).IncludesCode code = true ↔
        code ≤ 25) := by
  intro h
  exact absurd ((h 16).mpr (by decide)) (by decide)

/-- C14, amended: the pool returned by `GetValidRegistersForAllocation()` is
the register file x0..x31 minus the reserved registers x26..x31 minus the
registers of `MacroAssembler::DefaultTmpList()`, that is x0..x25 without the
assembler's scratch registers; the per-stub allocatable set is this pool minus
object, address and the value register given as scratch. -/
theorem RecordWriteStub.RegisterAllocation.pool_is_x0_to_x25_minus_tmp
    (DefaultTmpList : CPURegList) (object address scratch : Register) (code : Nat) :
    ((GetValidRegistersForAllocation DefaultTmpList).IncludesCode code = true ↔
      (code ≤ 31 ∧ reserved.IncludesCode code = false ∧
        DefaultTmpList.IncludesCode code = false)) ∧
    ((GetValidRegistersForAllocation DefaultTmpList).IncludesCode code = true ↔
      (code ≤ 25 ∧ DefaultTmpList.IncludesCode code = false)) ∧
    ((available DefaultTmpList object address scratch).IncludesCode code = true ↔
      ((GetValidRegistersForAllocation DefaultTmpList).IncludesCode code = true ∧
        code ≠ object.code ∧ code ≠ address.code ∧ code ≠ scratch.code)) := by
  have hres : reserved.IncludesCode code = (decide (code ≤ 31) && decide (26 ≤ code)) := by
    simp only [reserved, CPURegList.includesCode_range]
  refine ⟨?_, ?_, ?_⟩
  · rw [includesCode_pool, hres]
    simp only [Bool.and_eq_true, decide_eq_true_eq, Bool.not_eq_true', Bool.and_eq_false_imp,
      decide_eq_false_iff_not]
    constructor
    · rintro ⟨h25, htmp⟩
      exact ⟨by omega, fun _ => by omega, htmp⟩
    · rintro ⟨h31, hr, htmp⟩
      have := hr h31
      exact ⟨by omega, htmp⟩
  · rw [includesCode_pool]
    simp only [Bool.and_eq_true, decide_eq_true_eq, Bool.not_eq_true']
  · rw [includesCode_available, includesCode_pool]
    simp only [Bool.and_eq_true, decide_eq_true_eq, Bool.not_eq_true', Bool.or_eq_false_iff,
      decide_eq_false_iff_not]
    constructor
    · rintro ⟨⟨h25, htmp⟩, ⟨ho, ha⟩, hs⟩
      exact ⟨⟨h25, htmp⟩, Ne.symm ho, Ne.symm ha, Ne.symm hs⟩
    · rintro ⟨⟨h25, htmp⟩, ho, ha, hs⟩
      exact ⟨⟨h25, htmp⟩, ⟨Ne.symm ho, Ne.symm ha⟩, Ne.symm hs⟩

/-- C14, amended, on arm64: x15 is in the pool and x16 is not. -/
theorem RecordWriteStub.RegisterAllocation.pool_is_x0_to_x25_minus_tmp_witness :
    (GetValidRegistersForAllocation ip0_ip1).IncludesCode 15 = true ∧
    (GetValidRegistersForAllocation ip0_ip1).IncludesCode 16 = false ∧
    (15 ≤ 25 ∧ ip0_ip1.IncludesCode 15 = false) :=
  ⟨by decide, by decide,
    ((pool_is_x0_to_x25_minus_tmp ip0_ip1 (Register.from_code 1) (Register.from_code 2)
      (Register.from_code 3) 15).2.1).mp (by decide)⟩

/-! ## What the save and restore sequences contain -/

/-- C15: `SaveCallerSaveRegisters(mode)` emits the push of `saved_regs_`
first, followed by the push of `saved_fp_regs_` exactly when the mode is
`kSaveFPRegs`; `RestoreCallerSaveRegisters(mode)` emits the pop of
`saved_fp_regs_` exactly when the mode is `kSaveFPRegs`, and the pop of
`saved_regs_` last. -/
theorem RecordWriteStub.RegisterAllocation.caller_save_order (regs : RegisterAllocation)
    (mode : SaveFPRegsMode) :
    MacroAssembler.emitted (fun masm => regs.SaveCallerSaveRegisters masm mode)
      = Instr.PushCPURegList regs.saved_regs_ ::
          (if mode = SaveFPRegsMode.kSaveFPRegs then [Instr.PushCPURegList regs.saved_fp_regs_]
           else []) ∧
    MacroAssembler.emitted (fun masm => regs.RestoreCallerSaveRegisters masm mode)
      = (if mode = SaveFPRegsMode.kSaveFPRegs then [Instr.PopCPURegList regs.saved_fp_regs_]
         else []) ++ [Instr.PopCPURegList regs.saved_regs_] ∧
    ((MacroAssembler.emitted (fun masm => regs.SaveCallerSaveRegisters masm mode)).length = 2 ↔
      mode = SaveFPRegsMode.kSaveFPRegs) ∧
    ((MacroAssembler.emitted (fun masm => regs.RestoreCallerSaveRegisters masm mode)).length = 2 ↔
      mode = SaveFPRegsMode.kSaveFPRegs) := by
  refine ⟨emitted_save_caller regs mode, emitted_restore_caller regs mode, ?_, ?_⟩
  · rw [emitted_save_caller]; cases mode <;> simp
  · rw [emitted_restore_caller]; cases mode <;> simp

theorem Machine.run_pop_pair (a b : Register) (m : Machine) (v2 v1 : Nat) (rest : List Nat)
    (hstack : m.stack = v2 :: v1 :: rest) :
    Machine.run [Instr.Pop a b] m
      = some { x := fun c => if c = b.code then v1 else if c = a.code then v2 else m.x c
               d := m.d
               stack := rest } := by
  cases m with
  | mk x d stack =>
    simp only at hstack
    subst hstack
    simp only [Machine.run, Machine.exec, Machine.pop1, Machine.write]

/-- C16: `Save` emits one push of the pair scratch1, scratch2 and `Restore`
one pop of the same pair, and nothing else. Running `Save` writes no register;
running `Restore` (which succeeds when the stack holds two values) writes only
scratch1 and scratch2. So when object, address and scratch0 are distinct from
scratch1 and scratch2, their values are unchanged by `Save` and by
`Restore`. -/
theorem RecordWriteStub.RegisterAllocation.save_restore_touch_only_scratch
    (regs : RegisterAllocation) (m : Machine)
    (hobject : regs.object_.code ≠ regs.scratch1_.code ∧
      regs.object_.code ≠ regs.scratch2_.code)
    (haddress : regs.address_.code ≠ regs.scratch1_.code ∧
      regs.address_.code ≠ regs.scratch2_.code)
    (hscratch0 : regs.scratch0_.code ≠ regs.scratch1_.code ∧
      regs.scratch0_.code ≠ regs.scratch2_.code)
    (hstack : 2 ≤ m.stack.length) :
    MacroAssembler.emitted regs.Save = [Instr.Push regs.scratch1_ regs.scratch2_] ∧
    MacroAssembler.emitted regs.Restore = [Instr.Pop regs.scratch2_ regs.scratch1_] ∧
    (∃ m1, Machine.run (MacroAssembler.emitted regs.Save) m = some m1 ∧
      m1.x = m.x ∧ m1.d = m.d) ∧
    (∃ m2, Machine.run (MacroAssembler.emitted regs.Restore) m = some m2 ∧
      m2.d = m.d ∧
      (∀ code, code ≠ regs.scratch1_.code → code ≠ regs.scratch2_.code →
        m2.x code = m.x code) ∧
      m2.x regs.object_.code = m.x regs.object_.code ∧
      m2.x regs.address_.code = m.x regs.address_.code ∧
      m2.x regs.scratch0_.code = m.x regs.scratch0_.code) := by
  refine ⟨rfl, rfl, ⟨_, rfl, rfl, rfl⟩, ?_⟩
  rcases hm : m.stack with _ | ⟨v2, _ | ⟨v1, rest⟩⟩
  · rw [hm] at hstack; simp at hstack
  · rw [hm] at hstack; simp at hstack
  · have hrun : Machine.run (MacroAssembler.emitted regs.Restore) m = _ :=
      Machine.run_pop_pair regs.scratch2_ regs.scratch1_ m v2 v1 rest hm
    refine ⟨_, hrun, rfl, ?_, ?_, ?_, ?_⟩
    · intro code h1 h2
      simp only [if_neg h1, if_neg h2]
    · simp only [if_neg hobject.1, if_neg hobject.2]
    · simp only [if_neg haddress.1, if_neg haddress.2]
    · simp only [if_neg hscratch0.1, if_neg hscratch0.2]

/-- C16 on the arm64 plan for x1, x2, x3 (scratch1 = x0, scratch2 = x4) and a
machine whose stack holds two values. -/
theorem RecordWriteStub.RegisterAllocation.save_restore_touch_only_scratch_witness :
    ((planX1X2X3.object_.code ≠ planX1X2X3.scratch1_.code ∧
        planX1X2X3.object_.code ≠ planX1X2X3.scratch2_.code) ∧
      (planX1X2X3.address_.code ≠ planX1X2X3.scratch1_.code ∧
        planX1X2X3.address_.code ≠ planX1X2X3.scratch2_.code) ∧
      (planX1X2X3.scratch0_.code ≠ planX1X2X3.scratch1_.code ∧
        planX1X2X3.scratch0_.code ≠ planX1X2X3.scratch2_.code) ∧
      2 ≤ sampleMachine.stack.length) ∧
    (MacroAssembler.emitted planX1X2X3.Save
        = [Instr.Push planX1X2X3.scratch1_ planX1X2X3.scratch2_] ∧
    MacroAssembler.emitted planX1X2X3.Restore
        = [Instr.Pop planX1X2X3.scratch2_ planX1X2X3.scratch1_] ∧
    (∃ m1, Machine.run (MacroAssembler.emitted planX1X2X3.Save) sampleMachine = some m1 ∧
      m1.x = sampleMachine.x ∧ m1.d = sampleMachine.d) ∧
    (∃ m2, Machine.run (MacroAssembler.emitted planX1X2X3.Restore) sampleMachine = some m2 ∧
      m2.d = sampleMachine.d ∧
      (∀ code, code ≠ planX1X2X3.scratch1_.code → code ≠ planX1X2X3.scratch2_.code →
        m2.x code = sampleMachine.x code) ∧
      m2.x planX1X2X3.object_.code = sampleMachine.x planX1X2X3.object_.code ∧
      m2.x planX1X2X3.address_.code = sampleMachine.x planX1X2X3.address_.code ∧
      m2.x planX1X2X3.scratch0_.code = sampleMachine.x planX1X2X3.scratch0_.code)) :=
  ⟨⟨by decide, by decide, by decide, by decide⟩,
    save_restore_touch_only_scratch planX1X2X3 sampleMachine (by decide) (by decide)
      (by decide) (by decide)⟩

/-! ## Rebuilding a stub from its key -/

theorem RecordWriteStub.accessors_MinorKey (o v a : Nat) (r : RememberedSetAction)
    (f : SaveFPRegsMode) (ho : o < 32) (hv : v < 32) (ha : a < 32) :
    object (MinorKey (Register.from_code o) (Register.from_code v) (Register.from_code a) r f)
      = Register.from_code o ∧
    value (MinorKey (Register.from_code o) (Register.from_code v) (Register.from_code a) r f)
      = Register.from_code v ∧
    address (MinorKey (Register.from_code o) (Register.from_code v) (Register.from_code a) r f)
      = Register.from_code a := by
  have hr : r.toNat < 2 := by cases r <;> decide
  have hf : f.toNat < 2 := by cases f <;> decide
  have hk := MinorKey_eq o v a r f ho hv ha
  refine ⟨?_, ?_, ?_⟩
  · simp only [object, BitField.decode_eq, hk, ObjectBits]
    congr 1; omega
  · simp only [value, BitField.decode_eq, hk, ValueBits]
    congr 1; omega
  · simp only [address, BitField.decode_eq, hk, AddressBits]
    congr 1; omega

theorem RecordWriteStub.create_from_code (t : Target) (o v a : Nat) (r : RememberedSetAction)
    (f : SaveFPRegsMode) (ho : o < 32) (hv : v < 32) (ha : a < 32) :
    create t (Register.from_code o) (Register.from_code v) (Register.from_code a) r f
      = (RegisterAllocation.create t (Register.from_code o) (Register.from_code a)
          (Register.from_code v)).map
          (fun regs => { minor_key_ := MinorKey (Register.from_code o) (Register.from_code v)
                           (Register.from_code a) r f
                         regs_ := regs }) := by
  have h64 : ∀ c, (Register.from_code c).Is64Bits = true := fun _ => rfl
  have hvalid : ∀ (s c : Nat), c < 32 → (BitField.mk s 5).is_valid (Register.from_code c).code
      = true := by
    intro s c hc
    simp only [BitField.is_valid, BitField.kMax, Register.code, Register.from_code,
      decide_eq_true_eq, Nat.shiftLeft_eq]
    omega
  unfold create
  cases RegisterAllocation.create t (Register.from_code o) (Register.from_code a)
      (Register.from_code v) with
  | none => rfl
  | some regs =>
    simp only [h64, ObjectBits, ValueBits, AddressBits, hvalid _ o ho, hvalid _ v hv,
      hvalid _ a ha, Bool.and_self, Bool.not_true, Bool.false_eq_true, if_false, Option.map_some']

/-- C17: for register indices in 0..31 and either value of the two flags, the
stub rebuilt from the key with `RecordWriteStub(key, isolate)` passes to its
`RegisterAllocation` the same three arguments as the stub built from the
tuple: `object()`, `address()` and `value()` of the key are the original
object, address and value registers, the value register being the scratch
argument in both. So both constructions give the same register plan, and in
fact the same stub. -/
theorem RecordWriteStub.rebuilt_stub_same_plan (t : Target) (o v a : Nat)
    (r : RememberedSetAction) (f : SaveFPRegsMode) (ho : o < 32) (hv : v < 32) (ha : a < 32) :
    (object (MinorKey (Register.from_code o) (Register.from_code v) (Register.from_code a) r f),
      address (MinorKey (Register.from_code o) (Register.from_code v) (Register.from_code a) r f),
      value (MinorKey (Register.from_code o) (Register.from_code v) (Register.from_code a) r f))
      = (Register.from_code o, Register.from_code a, Register.from_code v) ∧
    (fromKey t (MinorKey (Register.from_code o) (Register.from_code v)
        (Register.from_code a) r f)).map (fun stub => stub.regs_)
      = RegisterAllocation.create t (Register.from_code o) (Register.from_code a)
          (Register.from_code v) ∧
    (create t (Register.from_code o) (Register.from_code v) (Register.from_code a) r f).map
        (fun stub => stub.regs_)
      = RegisterAllocation.create t (Register.from_code o) (Register.from_code a)
          (Register.from_code v) ∧
    fromKey t (MinorKey (Register.from_code o) (Register.from_code v)
        (Register.from_code a) r f)
      = create t (Register.from_code o) (Register.from_code v) (Register.from_code a) r f := by
  obtain ⟨h1, h2, h3⟩ := accessors_MinorKey o v a r f ho hv ha
  have hkey : fromKey t (MinorKey (Register.from_code o) (Register.from_code v)
        (Register.from_code a) r f)
      = (RegisterAllocation.create t (Register.from_code o) (Register.from_code a)
          (Register.from_code v)).map
          (fun regs => { minor_key_ := MinorKey (Register.from_code o) (Register.from_code v)
                           (Register.from_code a) r f
                         regs_ := regs }) := by
    unfold fromKey
    rw [h1, h2, h3]
    cases RegisterAllocation.create t (Register.from_code o) (Register.from_code a)
      (Register.from_code v) <;> rfl
  have hdirect := create_from_code t o v a r f ho hv ha
  refine ⟨by rw [h1, h2, h3], ?_, ?_, ?_⟩
  · rw [hkey, Option.map_map]
    cases RegisterAllocation.create t (Register.from_code o) (Register.from_code a)
      (Register.from_code v) <;> rfl
  · rw [hdirect, Option.map_map]
    cases RegisterAllocation.create t (Register.from_code o) (Register.from_code a)
      (Register.from_code v) <;> rfl
  · rw [hkey, hdirect]

/-- C17 on arm64 for object = r1, value = r3, address = r2: the stub rebuilt
from the key 2145 is the stub built from the tuple, with the plan for x1, x2
and x3 as scratch0. -/
theorem RecordWriteStub.rebuilt_stub_same_plan_witness :
    (1 < 32 ∧ 3 < 32 ∧ 2 < 32) ∧
    fromKey arm64 2145 = some { minor_key_ := 2145, regs_ := planX1X2X3 } ∧
    fromKey arm64 (MinorKey (Register.from_code 1) (Register.from_code 3)
        (Register.from_code 2) RememberedSetAction.EMIT_REMEMBERED_SET
        SaveFPRegsMode.kDontSaveFPRegs)
      = create arm64 (Register.from_code 1) (Register.from_code 3) (Register.from_code 2)
          RememberedSetAction.EMIT_REMEMBERED_SET SaveFPRegsMode.kDontSaveFPRegs :=
  ⟨by decide, by decide,
    (rebuilt_stub_same_plan arm64 1 3 2 RememberedSetAction.EMIT_REMEMBERED_SET
      SaveFPRegsMode.kDontSaveFPRegs (by decide) (by decide) (by decide)).2.2.2⟩

/-! ## Distinct parameters, distinct keys -/

theorem RememberedSetAction.toNat_injective (r1 r2 : RememberedSetAction)
    (h : r1.toNat = r2.toNat) : r1 = r2 := by
  cases r1 <;> cases r2 <;> first | rfl | exact absurd h (by decide)

theorem SaveFPRegsMode.fp_mode_toNat_injective (f1 f2 : SaveFPRegsMode)
    (h : f1.toNat = f2.toNat) : f1 = f2 := by
  cases f1 <;> cases f2 <;> first | rfl | exact absurd h (by decide)

/-- C18: the key is injective on valid tuples. If the first constructor
computes the same minor key for two tuples with register indices in 0..31,
the tuples agree in all five components; so tuples that differ in a component
get different keys. -/
theorem RecordWriteStub.key_injective (o1 v1 a1 o2 v2 a2 : Nat)
    (r1 r2 : RememberedSetAction) (f1 f2 : SaveFPRegsMode)
    (ho1 : o1 < 32) (hv1 : v1 < 32) (ha1 : a1 < 32)
    (ho2 : o2 < 32) (hv2 : v2 < 32) (ha2 : a2 < 32)
    (h : MinorKey (Register.from_code o1) (Register.from_code v1) (Register.from_code a1) r1 f1
      = MinorKey (Register.from_code o2) (Register.from_code v2) (Register.from_code a2) r2 f2) :
    o1 = o2 ∧ v1 = v2 ∧ a1 = a2 ∧ r1 = r2 ∧ f1 = f2 := by
  rw [MinorKey_eq o1 v1 a1 r1 f1 ho1 hv1 ha1, MinorKey_eq o2 v2 a2 r2 f2 ho2 hv2 ha2] at h
  have hr1 : r1.toNat < 2 := by cases r1 <;> decide
  have hr2 : r2.toNat < 2 := by cases r2 <;> decide
  have hf1 : f1.toNat < 2 := by cases f1 <;> decide
  have hf2 : f2.toNat < 2 := by cases f2 <;> decide
  refine ⟨by omega, by omega, by omega, ?_, ?_⟩
  · exact RememberedSetAction.toNat_injective r1 r2 (by omega)
  · exact SaveFPRegsMode.fp_mode_toNat_injective f1 f2 (by omega)

/-- C18 at the key 2145 of the tuple (r1, r3, r2, `EMIT_REMEMBERED_SET`,
`kDontSaveFPRegs`). -/
theorem RecordWriteStub.key_injective_witness :
    ((1 < 32 ∧ 3 < 32 ∧ 2 < 32) ∧
      MinorKey (Register.from_code 1) (Register.from_code 3) (Register.from_code 2)
          RememberedSetAction.EMIT_REMEMBERED_SET SaveFPRegsMode.kDontSaveFPRegs
        = MinorKey (Register.from_code 1) (Register.from_code 3) (Register.from_code 2)
          RememberedSetAction.EMIT_REMEMBERED_SET SaveFPRegsMode.kDontSaveFPRegs) ∧
    (1 = 1 ∧ 3 = 3 ∧ 2 = 2 ∧
      RememberedSetAction.EMIT_REMEMBERED_SET = RememberedSetAction.EMIT_REMEMBERED_SET ∧
      SaveFPRegsMode.kDontSaveFPRegs = SaveFPRegsMode.kDontSaveFPRegs) :=
  ⟨⟨by decide, rfl⟩,
    key_injective 1 3 2 1 3 2 RememberedSetAction.EMIT_REMEMBERED_SET
      RememberedSetAction.EMIT_REMEMBERED_SET SaveFPRegsMode.kDontSaveFPRegs
      SaveFPRegsMode.kDontSaveFPRegs (by decide) (by decide) (by decide) (by decide)
      (by decide) (by decide) rfl⟩

end internal
end v8
